import Mathlib

/-!
The worker cache of renterd (`internal/worker/cache.go`).

A shallow embedding of the event-synchronised read-through cache of the worker:
the expiring key/value store `memoryCache`, the `cache` built on top of it, its
read operations `DownloadContracts` and `GougingParams`, the bootstrap
`Initialize` and the event handlers behind `HandleEvent`.

Conventions of the embedding.

* Instants and durations are natural numbers of nanoseconds.  Every read of the
  wall clock (`time.Now()`) is an explicit argument of the operation that
  performs it.
* A Go value of type `interface{}` is a `Value`; a type assertion
  `v.(T)` is a partial projection, and an operation that evaluates a failing
  assertion yields `none` (the Go program panics).
* The bus is an interface: an implementation is a record of transition
  functions over an arbitrary state `σ`.  Every call made through the
  interface is appended to the ghost field `calls` of the cache.
* Messages written to the logger are appended to the field `logger`.
* A Go slice shares its backing array with every copy of its header.  Where
  `cache.go` reorders a slice in place while the store still holds a header
  for the same array, the store entry is rewritten accordingly
  (`memoryCache.reorderInPlace`).
-/

set_option linter.dupNamespace false

/-- Instants, in nanoseconds. -/
abbrev Time := Nat

namespace api

/-- A file contract identifier (`types.FileContractID`, a 32 byte hash), read as
a big-endian number.  Its `String()` is a fixed-width hexadecimal rendering, so
that string comparison of two rendered identifiers is comparison of the
numbers and two rendered identifiers differ exactly when the identifiers do. -/
abbrev FileContractID := Nat

/-- Modelled from the spec: `api.ContractMetadata` is declared outside the
files at hand ("a record describing a storage contract's identity and
terms"); `cache.go` reads the fields `ID` and `RenewedFrom` only, the
remaining terms of the contract are collected in `Terms`. -/
structure ContractMetadata where
  ID : FileContractID
  RenewedFrom : FileContractID
  Terms : Nat
  deriving DecidableEq, Repr

/-- Modelled from the spec: `api.ConsensusState`, declared outside the files at hand. -/
structure ConsensusState where
  BlockHeight : Nat
  LastBlockTime : Time
  Synced : Bool
  deriving DecidableEq, Repr

/-- Modelled from the spec: `api.GougingSettings`, declared outside the files
at hand; `cache.go` never inspects its fields. -/
structure GougingSettings where
  Fields : List Nat
  deriving DecidableEq, Repr

/-- Modelled from the spec: `api.RedundancySettings`, declared outside the files at hand. -/
structure RedundancySettings where
  MinShards : Nat
  TotalShards : Nat
  deriving DecidableEq, Repr

/-- Modelled from the spec: `api.GougingParams`, declared outside the files at
hand: "a settings bundle governing acceptable host pricing, combined with live
consensus state".  The four fields are the ones `cache.go` reads or writes. -/
structure GougingParams where
  ConsensusState : ConsensusState
  GougingSettings : GougingSettings
  RedundancySettings : RedundancySettings
  TransactionFee : Nat
  deriving DecidableEq, Repr

/-- The setting key `api.SettingGouging`. -/
def SettingGouging : String := "gouging"

/-- The setting key `api.SettingRedundancy`. -/
def SettingRedundancy : String := "redundancy"

/-- The event `api.EventConsensusUpdate`. -/
structure EventConsensusUpdate where
  ConsensusState : ConsensusState
  TransactionFee : Nat
  Timestamp : Time
  deriving DecidableEq, Repr

/-- The event `api.EventContractArchive`. -/
structure EventContractArchive where
  ContractID : FileContractID
  Reason : String
  Timestamp : Time
  deriving DecidableEq, Repr

/-- The event `api.EventContractRenew`. -/
structure EventContractRenew where
  Renewal : ContractMetadata
  Timestamp : Time
  deriving DecidableEq, Repr

/-- The event `api.EventSettingUpdate`; `Update` is an arbitrary dynamic value,
named here by a textual rendering. -/
structure EventSettingUpdate where
  Key : String
  Update : String
  Timestamp : Time
  deriving DecidableEq, Repr

/-- The event `api.EventSettingDelete`. -/
structure EventSettingDelete where
  Key : String
  Timestamp : Time
  deriving DecidableEq, Repr

/-- The dynamic value returned by `api.ParseEventWebhook`: one of the five
event types `HandleEvent` switches on, or a value of any other type. -/
inductive Parsed
  | ConsensusUpdate (e : EventConsensusUpdate)
  | ContractArchive (e : EventContractArchive)
  | ContractRenew (e : EventContractRenew)
  | SettingUpdate (e : EventSettingUpdate)
  | SettingDelete (e : EventSettingDelete)
  | Other (tag : Nat)
  deriving DecidableEq, Repr

end api

namespace webhooks

/-- The event types a webhook can be registered for. -/
inductive EventType
  | ConsensusUpdate
  | ContractArchive
  | ContractRenew
  | SettingUpdate
  | SettingDelete
  deriving DecidableEq, Repr

/-- Modelled from the spec: `webhooks.Webhook`, declared outside the files at
hand: a registration "pointing at the given callback address for each
relevant event type". -/
structure Webhook where
  URL : String
  Event : EventType
  deriving DecidableEq, Repr

/-- Modelled from the spec: `webhooks.NewEventWebhook(url, e)`, declared outside
the files at hand: the webhook for the type of the event `e`, pointing at `url`. -/
def NewEventWebhook (url : String) (e : EventType) : Webhook :=
  { URL := url, Event := e }

/-- The notification envelope `webhooks.Event`. -/
structure Event where
  Module : String
  Event : String
  Payload : String
  deriving DecidableEq, Repr

end webhooks

/-- Errors.  `external` stands for an error produced outside `cache.go`
(by the bus, by the event parser, by a JSON codec or by a validation
method); the other constructors are the `fmt.Errorf` wrappers of `cache.go`. -/
inductive Error
  | external (msg : String)
  | registerWebhook (wh : webhooks.Webhook) (err : Error)
  | marshal (err : Error)
  | gougingBody
  | gougingValidate (err : Error)
  | redundancyBody
  | redundancyValidate (err : Error)
  deriving DecidableEq, Repr

/-- The functions of the packages `api` and `encoding/json` that `cache.go`
calls and whose code is not at hand, taken as parameters. -/
structure Packages where
  /-- The function `api.ParseEventWebhook`. -/
  ParseEventWebhook : webhooks.Event → Except Error api.Parsed
  /-- The bytes `json.NewEncoder(&buf).Encode(gp)` leaves in the buffer. -/
  EncodeGougingParams : api.GougingParams → String
  /-- The result of `json.Marshal` on the update payload of a setting event. -/
  Marshal : String → Except Error String
  /-- The result of `json.Unmarshal` into an `api.GougingSettings`. -/
  UnmarshalGougingSettings : String → Except Error api.GougingSettings
  /-- The method `api.GougingSettings.Validate`. -/
  ValidateGougingSettings : api.GougingSettings → Option Error
  /-- The result of `json.Unmarshal` into an `api.RedundancySettings`. -/
  UnmarshalRedundancySettings : String → Except Error api.RedundancySettings
  /-- The method `api.RedundancySettings.Validate`. -/
  ValidateRedundancySettings : api.RedundancySettings → Option Error

namespace worker

/-- The store key of the contract list. -/
def cacheKeyDownloadContracts : String := "downloadcontracts"

/-- The store key of the gouging parameters. -/
def cacheKeyGougingParams : String := "gougingparams"

/-- The lifetime of a store entry: `5 * time.Minute`. -/
def cacheEntryExpiry : Nat := 5 * 60 * 1000000000

/-- A value of type `interface{}`: `nil`, a `[]api.ContractMetadata`, an
`api.GougingParams`, or a value of any other dynamic type. -/
inductive Value
  | nil
  | contracts (l : List api.ContractMetadata)
  | gougingParams (gp : api.GougingParams)
  | other (tag : Nat)
  deriving DecidableEq, Repr

/-- The type assertion `value.([]api.ContractMetadata)`. -/
def Value.assertContracts : Value → Option (List api.ContractMetadata)
  | .contracts l => some l
  | _ => none

/-- The type assertion `value.(api.GougingParams)`. -/
def Value.assertGougingParams : Value → Option api.GougingParams
  | .gougingParams gp => some gp
  | _ => none

/-- An entry of the store. -/
structure cacheEntry where
  value : Value
  expiry : Time
  deriving DecidableEq, Repr

/-- The expiring key/value store: a map from keys to entries. -/
structure memoryCache where
  items : String → Option cacheEntry

/-- The constructor `newMemoryCache`: the empty map. -/
def newMemoryCache : memoryCache :=
  { items := fun _ => none }

/-- The method `memoryCache.Get`, called at instant `now`; the result is
`(value, found, expired)`. -/
def memoryCache.Get (c : memoryCache) (key : String) (now : Time) : Value × Bool × Bool :=
  match c.items key with
  | none => (Value.nil, false, false)
  | some entry =>
    if entry.expiry < now then (entry.value, true, true)
    else (entry.value, true, false)

/-- The method `memoryCache.Set`, called at instant `now`. -/
def memoryCache.Set (c : memoryCache) (key : String) (value : Value) (now : Time) : memoryCache :=
  { items := fun k =>
      if k = key then some { value := value, expiry := now + cacheEntryExpiry }
      else c.items k }

/-- The method `memoryCache.Invalidate`. -/
def memoryCache.Invalidate (c : memoryCache) (key : String) : memoryCache :=
  { items := fun k => if k = key then none else c.items k }

/-- The effect on the store of reordering, in place, the slice whose header
the entry under `key` holds: the entry keeps its expiry and afterwards shows
the list `l`.  A store without an entry under `key` is untouched. -/
def memoryCache.reorderInPlace (c : memoryCache) (key : String)
    (l : List api.ContractMetadata) : memoryCache :=
  match c.items key with
  | none => c
  | some entry =>
    { items := fun k =>
        if k = key then some { value := Value.contracts l, expiry := entry.expiry }
        else c.items k }

/-- An implementation of the interface `Bus` over a state `σ`.  A call returns
its Go results (a value and an error, either of which may be set) and the next
state of the bus. -/
structure Bus (σ : Type) where
  Contracts : σ → (List api.ContractMetadata × Option Error) × σ
  GougingParams : σ → (api.GougingParams × Option Error) × σ
  RegisterWebhook : σ → webhooks.Webhook → Option Error × σ

/-- A call made through the interface `Bus`. -/
inductive BusCall
  | Contracts
  | GougingParams
  | RegisterWebhook (wh : webhooks.Webhook) (failed : Bool)
  deriving DecidableEq, Repr

/-- A message written to the logger. -/
inductive LogEntry
  | WarnNotReady
  | WarnOutdated (key : String)
  | ErrorParse
  | InfoUnhandled
  | ErrorHandle
  | InfoHandled
  deriving DecidableEq, Repr

/-- The struct `cache`: the bus (implementation `b` in state `busState`), the
store, the logger and the readiness flag, with the ghost list of the bus calls
made so far. -/
structure cache (σ : Type) where
  b : Bus σ
  busState : σ
  cache : memoryCache
  logger : List LogEntry
  ready : Bool
  calls : List BusCall

/-- The constructor `NewCache`. -/
def NewCache {σ : Type} (b : Bus σ) (s : σ) : cache σ :=
  { b := b, busState := s, cache := newMemoryCache, logger := [], ready := false, calls := [] }

/-- The sort performed by `sort.Slice(x, func(i, j) ... x[i].ID.String() < x[j].ID.String())`:
the elements in ascending order of their identifiers.  `sort.Slice` does not
promise an order among elements with the same identifier; the insertion sort
used here keeps them in their original order. -/
def sortSlice (x : List api.ContractMetadata) : List api.ContractMetadata :=
  List.insertionSort (fun a b => a.ID ≤ b.ID) x

/-- The loop of `contractsEqual` over the two sorted slices of equal length:
`false` at the first index where the identifiers differ. -/
def contractsEqualLoop : List api.ContractMetadata → List api.ContractMetadata → Bool
  | c :: xs, d :: ys => if c.ID ≠ d.ID then false else contractsEqualLoop xs ys
  | _, _ => true

/-- The function `contractsEqual`.  The result is the boolean together with
the contents of the slices `x` and `y` when the function returns: both are
sorted in place unless their lengths differ. -/
def contractsEqual (x y : List api.ContractMetadata) :
    Bool × List api.ContractMetadata × List api.ContractMetadata :=
  if x.length ≠ y.length then (false, x, y)
  else (contractsEqualLoop (sortSlice x) (sortSlice y), sortSlice x, sortSlice y)

/-- The function `gougingParamsEqual`: equality of the two JSON encodings. -/
def gougingParamsEqual (pk : Packages) (x y : api.GougingParams) : Bool :=
  pk.EncodeGougingParams x == pk.EncodeGougingParams y

namespace cache

variable {σ : Type}

/-- The method `isReady`. -/
def isReady (c : worker.cache σ) : Bool := c.ready

/-- A message is written to the logger. -/
def log (c : worker.cache σ) (e : LogEntry) : worker.cache σ :=
  { c with logger := c.logger ++ [e] }

/-- The call `c.b.Contracts(ctx, api.ContractsOpts{})`. -/
def busContracts (c : worker.cache σ) : (List api.ContractMetadata × Option Error) × worker.cache σ :=
  let r := c.b.Contracts c.busState
  (r.1, { c with busState := r.2, calls := c.calls ++ [BusCall.Contracts] })

/-- The call `c.b.GougingParams(ctx)`. -/
def busGougingParams (c : worker.cache σ) : (api.GougingParams × Option Error) × worker.cache σ :=
  let r := c.b.GougingParams c.busState
  (r.1, { c with busState := r.2, calls := c.calls ++ [BusCall.GougingParams] })

/-- The call `c.b.RegisterWebhook(ctx, wh, webhookOpts...)`. -/
def busRegisterWebhook (c : worker.cache σ) (wh : webhooks.Webhook) : Option Error × worker.cache σ :=
  let r := c.b.RegisterWebhook c.busState wh
  (r.1, { c with busState := r.2,
                 calls := c.calls ++ [BusCall.RegisterWebhook wh r.1.isSome] })

/-- The method `DownloadContracts`; the store is read at instant `tGet` and,
when it is written, written at instant `tSet`. -/
def DownloadContracts (c : worker.cache σ) (tGet tSet : Time) :
    Option ((List api.ContractMetadata × Option Error) × worker.cache σ) :=
  if !c.isReady then
    some (c.log LogEntry.WarnNotReady).busContracts
  else
    let (value, found, expired) := c.cache.Get cacheKeyDownloadContracts tGet
    if !found || expired then
      let ((contracts, err), c1) := c.busContracts
      let c2 : worker.cache σ :=
        if err.isNone then
          { c1 with cache := c1.cache.Set cacheKeyDownloadContracts (Value.contracts contracts) tSet }
        else c1
      if expired then
        match value.assertContracts with
        | none => none
        | some x =>
          let (eq, x1, y1) := contractsEqual x contracts
          -- the entry under the key holds the slice `contracts` (just stored)
          -- when the fetch succeeded and the slice `x` otherwise
          let c3 : worker.cache σ :=
            { c2 with cache :=
                c2.cache.reorderInPlace cacheKeyDownloadContracts (if err.isNone then y1 else x1) }
          let c4 := if !eq then c3.log (LogEntry.WarnOutdated cacheKeyDownloadContracts) else c3
          some ((y1, err), c4)
      else
        some ((contracts, err), c2)
    else
      match value.assertContracts with
      | none => none
      | some l => some ((l, none), c)

/-- The method `GougingParams`; the store is read at instant `tGet` and, when
it is written, written at instant `tSet`. -/
def GougingParams (pk : Packages) (c : worker.cache σ) (tGet tSet : Time) :
    Option ((api.GougingParams × Option Error) × worker.cache σ) :=
  if !c.isReady then
    some (c.log LogEntry.WarnNotReady).busGougingParams
  else
    let (value, found, expired) := c.cache.Get cacheKeyGougingParams tGet
    if !found || expired then
      let ((gp, err), c1) := c.busGougingParams
      let c2 : worker.cache σ :=
        if err.isNone then
          { c1 with cache := c1.cache.Set cacheKeyGougingParams (Value.gougingParams gp) tSet }
        else c1
      if expired then
        match value.assertGougingParams with
        | none => none
        | some x =>
          let c3 :=
            if !gougingParamsEqual pk x gp then c2.log (LogEntry.WarnOutdated cacheKeyGougingParams)
            else c2
          some ((gp, err), c3)
      else
        some ((gp, err), c2)
    else
      match value.assertGougingParams with
      | none => none
      | some gp => some ((gp, none), c)

/-- The loop of `Initialize` over the webhooks still to be registered: it
returns at the first registration the bus refuses. -/
def registerWebhooks : List webhooks.Webhook → worker.cache σ → Option Error × worker.cache σ
  | [], c => (none, c)
  | wh :: rest, c =>
    match c.busRegisterWebhook wh with
    | (some err, c1) => (some (Error.registerWebhook wh err), c1)
    | (none, c1) => registerWebhooks rest c1

/-- The webhooks `Initialize` registers, in the order of the source. -/
def initWebhooks (eventsURL : String) : List webhooks.Webhook :=
  [ webhooks.NewEventWebhook eventsURL webhooks.EventType.ConsensusUpdate,
    webhooks.NewEventWebhook eventsURL webhooks.EventType.ContractArchive,
    webhooks.NewEventWebhook eventsURL webhooks.EventType.ContractRenew,
    webhooks.NewEventWebhook eventsURL webhooks.EventType.SettingUpdate ]

/-- The method `Initialize`. -/
def Initialize (c : worker.cache σ) (workerAPI : String) : Option Error × worker.cache σ :=
  let eventsURL := workerAPI ++ "/events"
  match registerWebhooks (initWebhooks eventsURL) c with
  | (some err, c1) => (some err, c1)
  | (none, c1) => (none, { c1 with ready := true })

/-- The method `handleConsensusUpdate`, run at instant `now`. -/
def handleConsensusUpdate (c : worker.cache σ) (event : api.EventConsensusUpdate) (now : Time) :
    Option (worker.cache σ) :=
  let (value, found, _) := c.cache.Get cacheKeyGougingParams now
  if !found then some c
  else
    match value.assertGougingParams with
    | none => none
    | some gp =>
      let gp1 := { gp with ConsensusState := event.ConsensusState }
      let gp2 := { gp1 with TransactionFee := event.TransactionFee }
      some { c with cache := c.cache.Set cacheKeyGougingParams (Value.gougingParams gp2) now }

/-- The loop of `handleContractArchive`: `i` is the index of the head of the
part `rest` of `contracts` still to be visited; at the first contract with the
archived identifier the result is `append(contracts[:i], contracts[i+1:]...)`. -/
def archiveLoop (id : api.FileContractID) (contracts : List api.ContractMetadata) :
    Nat → List api.ContractMetadata → List api.ContractMetadata
  | _, [] => contracts
  | i, contract :: rest =>
    if contract.ID = id then contracts.take i ++ contracts.drop (i + 1)
    else archiveLoop id contracts (i + 1) rest

/-- The method `handleContractArchive`, run at instant `now`. -/
def handleContractArchive (c : worker.cache σ) (event : api.EventContractArchive) (now : Time) :
    Option (worker.cache σ) :=
  let (value, found, _) := c.cache.Get cacheKeyDownloadContracts now
  if !found then some c
  else
    match value.assertContracts with
    | none => none
    | some contracts =>
      let contracts1 := archiveLoop event.ContractID contracts 0 contracts
      some { c with cache := c.cache.Set cacheKeyDownloadContracts (Value.contracts contracts1) now }

/-- The loop of `handleContractRenew`: `i` is the index of the head of the part
`rest` of `contracts` still to be visited; at the first contract with the
identifier `RenewedFrom` of the renewal the assignment `contracts[i] = renewal`
is made. -/
def renewLoop (renewal : api.ContractMetadata) (contracts : List api.ContractMetadata) :
    Nat → List api.ContractMetadata → List api.ContractMetadata
  | _, [] => contracts
  | i, contract :: rest =>
    if contract.ID = renewal.RenewedFrom then contracts.set i renewal
    else renewLoop renewal contracts (i + 1) rest

/-- The method `handleContractRenew`, run at instant `now`. -/
def handleContractRenew (c : worker.cache σ) (event : api.EventContractRenew) (now : Time) :
    Option (worker.cache σ) :=
  let (value, found, _) := c.cache.Get cacheKeyDownloadContracts now
  if !found then some c
  else
    match value.assertContracts with
    | none => none
    | some contracts =>
      let contracts1 := renewLoop event.Renewal contracts 0 contracts
      some { c with cache := c.cache.Set cacheKeyDownloadContracts (Value.contracts contracts1) now }

/-- The method `handleSettingDelete`. -/
def handleSettingDelete (c : worker.cache σ) (e : api.EventSettingDelete) : worker.cache σ :=
  if e.Key = api.SettingGouging ∨ e.Key = api.SettingRedundancy then
    { c with cache := c.cache.Invalidate cacheKeyGougingParams }
  else c

/-- The method `handleSettingUpdate`, run at instant `now`. -/
def handleSettingUpdate (pk : Packages) (c : worker.cache σ) (e : api.EventSettingUpdate)
    (now : Time) : Option (Option Error × worker.cache σ) :=
  let (value, found, _) := c.cache.Get cacheKeyGougingParams now
  if !found then some (none, c)
  else
    match value.assertGougingParams with
    | none => none
    | some gp =>
      match pk.Marshal e.Update with
      | Except.error err => some (some (Error.marshal err), c)
      | Except.ok data =>
        if e.Key = api.SettingGouging then
          match pk.UnmarshalGougingSettings data with
          | Except.error _ => some (some Error.gougingBody, c)
          | Except.ok gs =>
            match pk.ValidateGougingSettings gs with
            | some err => some (some (Error.gougingValidate err), c)
            | none =>
              let gp1 := { gp with GougingSettings := gs }
              some (none,
                { c with cache := c.cache.Set cacheKeyGougingParams (Value.gougingParams gp1) now })
        else if e.Key = api.SettingRedundancy then
          match pk.UnmarshalRedundancySettings data with
          | Except.error _ => some (some Error.redundancyBody, c)
          | Except.ok rs =>
            match pk.ValidateRedundancySettings rs with
            | some err => some (some (Error.redundancyValidate err), c)
            | none =>
              let gp1 := { gp with RedundancySettings := rs }
              some (none,
                { c with cache := c.cache.Set cacheKeyGougingParams (Value.gougingParams gp1) now })
        else some (none, c)

/-- The end of `HandleEvent`: the outcome of the handler is logged and returned. -/
def logOutcome (c : worker.cache σ) (err : Option Error) : Option Error × worker.cache σ :=
  match err with
  | some e => (some e, c.log LogEntry.ErrorHandle)
  | none => (none, c.log LogEntry.InfoHandled)

/-- The method `HandleEvent`, run at instant `now`. -/
def HandleEvent (pk : Packages) (c : worker.cache σ) (event : webhooks.Event) (now : Time) :
    Option (Option Error × worker.cache σ) :=
  match pk.ParseEventWebhook event with
  | Except.error err => some (some err, c.log LogEntry.ErrorParse)
  | Except.ok parsed =>
    match parsed with
    | api.Parsed.ConsensusUpdate e =>
      (c.handleConsensusUpdate e now).map (fun c1 => logOutcome c1 none)
    | api.Parsed.ContractArchive e =>
      (c.handleContractArchive e now).map (fun c1 => logOutcome c1 none)
    | api.Parsed.ContractRenew e =>
      (c.handleContractRenew e now).map (fun c1 => logOutcome c1 none)
    | api.Parsed.SettingUpdate e =>
      (c.handleSettingUpdate pk e now).map (fun r => logOutcome r.2 r.1)
    | api.Parsed.SettingDelete e =>
      some (logOutcome (c.handleSettingDelete e) none)
    | api.Parsed.Other _ => some (none, c.log LogEntry.InfoUnhandled)

end cache

/-! ## Sequences of store operations -/

/-- An operation on the store, with the instant at which it is executed. -/
inductive StoreOp
  | Get (key : String) (now : Time)
  | Set (key : String) (value : Value) (now : Time)
  | Invalidate (key : String)
  deriving DecidableEq, Repr

/-- The store after an operation. -/
def StoreOp.run : StoreOp → memoryCache → memoryCache
  | StoreOp.Get _ _, m => m
  | StoreOp.Set k v t, m => m.Set k v t
  | StoreOp.Invalidate k, m => m.Invalidate k

/-- The operation is a `Set` of the key `k`. -/
def StoreOp.setsKey (k : String) : StoreOp → Bool
  | StoreOp.Set k1 _ _ => decide (k1 = k)
  | _ => false

/-- The operation is a `Set` or an `Invalidate` of the key `k`. -/
def StoreOp.writesKey (k : String) : StoreOp → Bool
  | StoreOp.Get _ _ => false
  | StoreOp.Set k1 _ _ => decide (k1 = k)
  | StoreOp.Invalidate k1 => decide (k1 = k)

/-- The store after a sequence of operations, executed from left to right. -/
def runStoreOps (m : memoryCache) (ops : List StoreOp) : memoryCache :=
  ops.foldl (fun acc op => op.run acc) m

/-! ## Sequences of reads -/

namespace cache

variable {σ : Type}

/-- A sequence of calls of `DownloadContracts`, one for each pair of instants
`(tGet, tSet)`, with the list of their results. -/
def repeatDownloadContracts (c : worker.cache σ) :
    List (Time × Time) → Option (List (List api.ContractMetadata × Option Error) × worker.cache σ)
  | [] => some ([], c)
  | t :: ts =>
    match c.DownloadContracts t.1 t.2 with
    | none => none
    | some (r, c1) =>
      match repeatDownloadContracts c1 ts with
      | none => none
      | some (rs, c2) => some (r :: rs, c2)

/-- A sequence of calls of `GougingParams`, one for each pair of instants
`(tGet, tSet)`, with the list of their results. -/
def repeatGougingParams (pk : Packages) (c : worker.cache σ) :
    List (Time × Time) → Option (List (api.GougingParams × Option Error) × worker.cache σ)
  | [] => some ([], c)
  | t :: ts =>
    match c.GougingParams pk t.1 t.2 with
    | none => none
    | some (r, c1) =>
      match repeatGougingParams pk c1 ts with
      | none => none
      | some (rs, c2) => some (r :: rs, c2)

end cache

/-! ## Concrete data for the examples -/

/-- A contract with the given identifier. -/
def exampleContract (id : api.FileContractID) : api.ContractMetadata :=
  { ID := id, RenewedFrom := 0, Terms := 0 }

/-- A bundle of gouging parameters at the given block height. -/
def exampleGougingParams (height : Nat) : api.GougingParams :=
  { ConsensusState := { BlockHeight := height, LastBlockTime := 0, Synced := true },
    GougingSettings := { Fields := [] },
    RedundancySettings := { MinShards := 10, TotalShards := 30 },
    TransactionFee := 1 }

/-- A bus without state that answers every call with the given results. -/
def exampleBus (contracts : List api.ContractMetadata × Option Error)
    (gp : api.GougingParams × Option Error) (register : webhooks.Webhook → Option Error) :
    Bus Unit :=
  { Contracts := fun s => (contracts, s),
    GougingParams := fun s => (gp, s),
    RegisterWebhook := fun s wh => (register wh, s) }

/-- Packages for the examples: every envelope parses to the given event, the
encoding of a bundle of gouging parameters is its block height, and every
settings payload is rejected. -/
def examplePackages (parsed : api.Parsed) : Packages :=
  { ParseEventWebhook := fun _ => Except.ok parsed,
    EncodeGougingParams := fun gp => toString gp.ConsensusState.BlockHeight,
    Marshal := fun u => Except.ok u,
    UnmarshalGougingSettings := fun _ => Except.error (Error.external "invalid"),
    ValidateGougingSettings := fun _ => none,
    UnmarshalRedundancySettings := fun _ => Except.error (Error.external "invalid"),
    ValidateRedundancySettings := fun _ => none }

/-- A cache over the bus `b` with the given readiness flag whose store holds
the given entries (at most one per kind) and nothing else. -/
def exampleCache (b : Bus Unit) (ready : Bool) (contracts gp : Option cacheEntry) :
    worker.cache Unit :=
  { b := b, busState := (),
    cache := { items := fun k =>
      if k = cacheKeyDownloadContracts then contracts
      else if k = cacheKeyGougingParams then gp else none },
    logger := [], ready := ready, calls := [] }

/-! ## The list updates as the specification words them -/

/-- The list `l` with the first element whose ID equals `x` removed and all
other elements kept in their order. -/
def removeFirstID (x : api.FileContractID) : List api.ContractMetadata → List api.ContractMetadata
  | [] => []
  | c :: cs => if c.ID = x then cs else c :: removeFirstID x cs

/-- The list `l` with the first element whose ID equals `r.RenewedFrom`
replaced by `r` and every other position unchanged. -/
def replaceFirstID (r : api.ContractMetadata) : List api.ContractMetadata → List api.ContractMetadata
  | [] => []
  | c :: cs => if c.ID = r.RenewedFrom then r :: cs else c :: replaceFirstID r cs

/-! ## Setting updates the handler rejects, and sequences of cache operations -/

/-- The update payload of a setting event does not deserialize into gouging
settings (the payload cannot be marshalled, or the bytes cannot be
unmarshalled into an `api.GougingSettings`) or the settings fail their
validation. -/
def gougingUpdateInvalid (pk : Packages) (update : String) : Bool :=
  match pk.Marshal update with
  | Except.error _ => true
  | Except.ok data =>
    match pk.UnmarshalGougingSettings data with
    | Except.error _ => true
    | Except.ok gs => (pk.ValidateGougingSettings gs).isSome

/-- Packages for the examples that accept every settings payload: every
envelope parses to the given event, the encoding of a bundle of gouging
parameters is its block height, a payload unmarshals to settings built from
its length, and validation succeeds. -/
def acceptingPackages (parsed : api.Parsed) : Packages :=
  { ParseEventWebhook := fun _ => Except.ok parsed,
    EncodeGougingParams := fun gp => toString gp.ConsensusState.BlockHeight,
    Marshal := fun u => Except.ok u,
    UnmarshalGougingSettings := fun d => Except.ok { Fields := [d.length] },
    ValidateGougingSettings := fun _ => none,
    UnmarshalRedundancySettings := fun d =>
      Except.ok { MinShards := d.length, TotalShards := 3 * d.length },
    ValidateRedundancySettings := fun _ => none }

/-- A call of one of the four operations of the interface `WorkerCache`, with
the instants at which it reads the clock. -/
inductive Op
  | DownloadContracts (tGet tSet : Time)
  | GougingParams (tGet tSet : Time)
  | HandleEvent (event : webhooks.Event) (now : Time)
  | Initialize (workerAPI : String)
  deriving DecidableEq, Repr

/-- The cache after a call; `none` when a type assertion fails during the call. -/
def Op.run {σ : Type} (pk : Packages) (c : worker.cache σ) : Op → Option (worker.cache σ)
  | Op.DownloadContracts tGet tSet => (c.DownloadContracts tGet tSet).map (fun r => r.2)
  | Op.GougingParams tGet tSet => (c.GougingParams pk tGet tSet).map (fun r => r.2)
  | Op.HandleEvent event now => (c.HandleEvent pk event now).map (fun r => r.2)
  | Op.Initialize workerAPI => some (c.Initialize workerAPI).2

/-- The cache after a sequence of calls, executed from left to right; `none`
when a type assertion fails during one of them. -/
def runOps {σ : Type} (pk : Packages) (c : worker.cache σ) : List Op → Option (worker.cache σ)
  | [] => some c
  | op :: ops =>
    match op.run pk c with
    | none => none
    | some c1 => runOps pk c1 ops

/-- The typing discipline of the store: an entry under the contracts key holds a
contract list, an entry under the gouging key holds a bundle of gouging
parameters. -/
def wellTyped (m : memoryCache) : Prop :=
  (∀ e : cacheEntry, m.items cacheKeyDownloadContracts = some e →
    ∃ l : List api.ContractMetadata, e.value = Value.contracts l) ∧
  (∀ e : cacheEntry, m.items cacheKeyGougingParams = some e →
    ∃ gp : api.GougingParams, e.value = Value.gougingParams gp)

/-! ## Results about the store -/

theorem memoryCache.ext_items {m1 m2 : memoryCache} (h : ∀ k, m1.items k = m2.items k) :
    m1 = m2 := by
  cases m1; cases m2
  congr
  exact funext h

theorem memoryCache.items_Set (m : memoryCache) (key : String) (v : Value) (now : Time)
    (k : String) :
    (m.Set key v now).items k =
      if k = key then some { value := v, expiry := now + cacheEntryExpiry } else m.items k := rfl

theorem memoryCache.items_Invalidate (m : memoryCache) (key k : String) :
    (m.Invalidate key).items k = if k = key then none else m.items k := rfl

theorem memoryCache.Get_of_none (m : memoryCache) (key : String) (now : Time)
    (h : m.items key = none) : m.Get key now = (Value.nil, false, false) := by
  simp [memoryCache.Get, h]

theorem memoryCache.Get_of_some (m : memoryCache) (key : String) (now : Time) (e : cacheEntry)
    (h : m.items key = some e) : m.Get key now = (e.value, true, decide (e.expiry < now)) := by
  by_cases hlt : e.expiry < now <;> simp [memoryCache.Get, h, hlt]

theorem StoreOp.run_items_of_not_writes (op : StoreOp) (m : memoryCache) (k : String)
    (h : op.writesKey k = false) : (op.run m).items k = m.items k := by
  cases op with
  | Get k1 t => rfl
  | Set k1 v t =>
    have hne : ¬ k1 = k := by simpa [StoreOp.writesKey] using h
    have hne2 : ¬ k = k1 := fun e => hne e.symm
    simp [StoreOp.run, memoryCache.items_Set, hne2]
  | Invalidate k1 =>
    have hne : ¬ k1 = k := by simpa [StoreOp.writesKey] using h
    have hne2 : ¬ k = k1 := fun e => hne e.symm
    simp [StoreOp.run, memoryCache.items_Invalidate, hne2]

theorem runStoreOps_items_of_not_writes (ops : List StoreOp) (m : memoryCache) (k : String)
    (h : ∀ op ∈ ops, op.writesKey k = false) : (runStoreOps m ops).items k = m.items k := by
  induction ops generalizing m with
  | nil => rfl
  | cons op rest ih =>
    have h1 : op.writesKey k = false := h op (List.mem_cons_self _ _)
    have h2 : ∀ o ∈ rest, o.writesKey k = false := fun o ho => h o (List.mem_cons_of_mem _ ho)
    show (runStoreOps (op.run m) rest).items k = m.items k
    rw [ih (op.run m) h2, StoreOp.run_items_of_not_writes op m k h1]

theorem StoreOp.run_items_none_of_not_sets (op : StoreOp) (m : memoryCache) (k : String)
    (h : op.setsKey k = false) (hm : m.items k = none) : (op.run m).items k = none := by
  cases op with
  | Get k1 t => exact hm
  | Set k1 v t =>
    have hne : ¬ k1 = k := by simpa [StoreOp.setsKey] using h
    have hne2 : ¬ k = k1 := fun e => hne e.symm
    simp [StoreOp.run, memoryCache.items_Set, hne2, hm]
  | Invalidate k1 =>
    by_cases hk : k = k1 <;> simp [StoreOp.run, memoryCache.items_Invalidate, hk, hm]

theorem runStoreOps_items_none_of_not_sets (ops : List StoreOp) (m : memoryCache) (k : String)
    (h : ∀ op ∈ ops, op.setsKey k = false) (hm : m.items k = none) :
    (runStoreOps m ops).items k = none := by
  induction ops generalizing m with
  | nil => exact hm
  | cons op rest ih =>
    have h1 : op.setsKey k = false := h op (List.mem_cons_self _ _)
    have h2 : ∀ o ∈ rest, o.setsKey k = false := fun o ho => h o (List.mem_cons_of_mem _ ho)
    exact ih (op.run m) h2 (StoreOp.run_items_none_of_not_sets op m k h1 hm)

/-- Claim C4.  After `Set(k, v)` executed at instant `t0`, followed by any
sequence of store operations none of which is a `Set` or an `Invalidate` of `k`,
a `Get(k)` executed at any instant `t` reports the exact value `v` with
`found = true`, and `expired = true` exactly when `t` is after `t0` plus five
minutes: the passage of time never removes the entry. -/
theorem C4_get_after_set (m : memoryCache) (k : String) (v : Value) (t0 t : Time)
    (ops : List StoreOp) (h : ∀ op ∈ ops, op.writesKey k = false) :
    ((runStoreOps (m.Set k v t0) ops).Get k t).1 = v ∧
    ((runStoreOps (m.Set k v t0) ops).Get k t).2.1 = true ∧
    (((runStoreOps (m.Set k v t0) ops).Get k t).2.2 = true ↔ t0 + 5 * 60 * 1000000000 < t) := by
  have hitems : (runStoreOps (m.Set k v t0) ops).items k
      = some { value := v, expiry := t0 + cacheEntryExpiry } := by
    rw [runStoreOps_items_of_not_writes ops _ k h]
    simp [memoryCache.items_Set]
  rw [memoryCache.Get_of_some _ k t _ hitems]
  simp [cacheEntryExpiry]

/-- Witness of claim C4: a contract list set at instant 7, followed by a `Set`
and an `Invalidate` of other keys and a `Get`, read one nanosecond after the
five minutes have passed. -/
theorem C4_get_after_set_witness :
    (∀ op ∈ [StoreOp.Set "gougingparams" (Value.other 1) 9, StoreOp.Invalidate "k",
        StoreOp.Get "downloadcontracts" 400000000000], op.writesKey "downloadcontracts" = false) ∧
    ((runStoreOps (newMemoryCache.Set "downloadcontracts" (Value.other 0) 7)
        [StoreOp.Set "gougingparams" (Value.other 1) 9, StoreOp.Invalidate "k",
          StoreOp.Get "downloadcontracts" 400000000000]).Get "downloadcontracts" 300000000008).1
      = Value.other 0 ∧
    ((runStoreOps (newMemoryCache.Set "downloadcontracts" (Value.other 0) 7)
        [StoreOp.Set "gougingparams" (Value.other 1) 9, StoreOp.Invalidate "k",
          StoreOp.Get "downloadcontracts" 400000000000]).Get "downloadcontracts" 300000000008).2.1
      = true ∧
    (((runStoreOps (newMemoryCache.Set "downloadcontracts" (Value.other 0) 7)
        [StoreOp.Set "gougingparams" (Value.other 1) 9, StoreOp.Invalidate "k",
          StoreOp.Get "downloadcontracts" 400000000000]).Get "downloadcontracts" 300000000008).2.2
      = true ↔ 7 + 5 * 60 * 1000000000 < 300000000008) :=
  ⟨by decide, C4_get_after_set newMemoryCache "downloadcontracts" (Value.other 0) 7 300000000008
    _ (by decide)⟩

/-- Claim C5.  `Get(k)` reports `found = false`, with a nil value and
`expired = false`, on a store built from the empty store by operations none of
which is a `Set` of `k`, and on any store right after `Invalidate(k)`, whether
or not `k` was present; `Invalidate(k)` on a store without `k` leaves the store
as it is, and `Invalidate(k)` never changes the entry of another key. -/
theorem C5_get_absent_and_invalidate (m : memoryCache) (k : String) (now : Time) :
    (∀ ops : List StoreOp, (∀ op ∈ ops, op.setsKey k = false) →
      (runStoreOps newMemoryCache ops).Get k now = (Value.nil, false, false)) ∧
    (m.Invalidate k).Get k now = (Value.nil, false, false) ∧
    (m.items k = none → m.Invalidate k = m) ∧
    (∀ k1 : String, k1 ≠ k → (m.Invalidate k).items k1 = m.items k1) := by
  refine ⟨?_, ?_, ?_, ?_⟩
  · intro ops h
    exact memoryCache.Get_of_none _ k now
      (runStoreOps_items_none_of_not_sets ops newMemoryCache k h rfl)
  · exact memoryCache.Get_of_none _ k now (by simp [memoryCache.items_Invalidate])
  · intro h
    apply memoryCache.ext_items
    intro k1
    by_cases hk : k1 = k
    · subst hk
      simp [memoryCache.items_Invalidate, h]
    · simp [memoryCache.items_Invalidate, hk]
  · intro k1 hk
    simp [memoryCache.items_Invalidate, hk]

/-- Witness of claim C5: the key of the contract list on a store that only ever
held the gouging parameters. -/
theorem C5_get_absent_and_invalidate_witness :
    (∀ op ∈ [StoreOp.Set "gougingparams" (Value.other 1) 9, StoreOp.Invalidate "downloadcontracts"],
        op.setsKey "downloadcontracts" = false) ∧
    (newMemoryCache.Set "gougingparams" (Value.other 1) 9).items "downloadcontracts" = none ∧
    "gougingparams" ≠ "downloadcontracts" ∧
    (runStoreOps newMemoryCache
        [StoreOp.Set "gougingparams" (Value.other 1) 9, StoreOp.Invalidate "downloadcontracts"]).Get
        "downloadcontracts" 10 = (Value.nil, false, false) ∧
    (newMemoryCache.Set "gougingparams" (Value.other 1) 9).Invalidate "downloadcontracts"
      = newMemoryCache.Set "gougingparams" (Value.other 1) 9 ∧
    ((newMemoryCache.Set "gougingparams" (Value.other 1) 9).Invalidate "downloadcontracts").items
        "gougingparams"
      = (newMemoryCache.Set "gougingparams" (Value.other 1) 9).items "gougingparams" :=
  ⟨by decide, by decide, by decide,
    (C5_get_absent_and_invalidate (newMemoryCache.Set "gougingparams" (Value.other 1) 9)
      "downloadcontracts" 10).1 _ (by decide),
    (C5_get_absent_and_invalidate (newMemoryCache.Set "gougingparams" (Value.other 1) 9)
      "downloadcontracts" 10).2.2.1 (by decide),
    (C5_get_absent_and_invalidate (newMemoryCache.Set "gougingparams" (Value.other 1) 9)
      "downloadcontracts" 10).2.2.2 "gougingparams" (by decide)⟩

/-! ## Results about the read operations -/

theorem cache.DownloadContracts_not_ready {σ : Type} (c : worker.cache σ) (tGet tSet : Time)
    (h : c.ready = false) :
    c.DownloadContracts tGet tSet =
      some ((c.b.Contracts c.busState).1,
        { c with busState := (c.b.Contracts c.busState).2,
                 logger := c.logger ++ [LogEntry.WarnNotReady],
                 calls := c.calls ++ [BusCall.Contracts] }) := by
  simp [cache.DownloadContracts, cache.isReady, h, cache.busContracts, cache.log]

theorem cache.GougingParams_not_ready {σ : Type} (pk : Packages) (c : worker.cache σ)
    (tGet tSet : Time) (h : c.ready = false) :
    c.GougingParams pk tGet tSet =
      some ((c.b.GougingParams c.busState).1,
        { c with busState := (c.b.GougingParams c.busState).2,
                 logger := c.logger ++ [LogEntry.WarnNotReady],
                 calls := c.calls ++ [BusCall.GougingParams] }) := by
  simp [cache.GougingParams, cache.isReady, h, cache.busGougingParams, cache.log]

theorem cache.DownloadContracts_miss {σ : Type} (c : worker.cache σ) (tGet tSet : Time)
    (hready : c.ready = true) (habsent : c.cache.items cacheKeyDownloadContracts = none)
    (hok : (c.b.Contracts c.busState).1.2 = none) :
    c.DownloadContracts tGet tSet =
      some (((c.b.Contracts c.busState).1.1, none),
        { c with busState := (c.b.Contracts c.busState).2,
                 calls := c.calls ++ [BusCall.Contracts],
                 cache := c.cache.Set cacheKeyDownloadContracts
                   (Value.contracts (c.b.Contracts c.busState).1.1) tSet }) := by
  simp [cache.DownloadContracts, cache.isReady, hready, memoryCache.Get_of_none _ _ _ habsent,
    cache.busContracts, hok]

theorem cache.GougingParams_miss {σ : Type} (pk : Packages) (c : worker.cache σ)
    (tGet tSet : Time)
    (hready : c.ready = true) (habsent : c.cache.items cacheKeyGougingParams = none)
    (hok : (c.b.GougingParams c.busState).1.2 = none) :
    c.GougingParams pk tGet tSet =
      some (((c.b.GougingParams c.busState).1.1, none),
        { c with busState := (c.b.GougingParams c.busState).2,
                 calls := c.calls ++ [BusCall.GougingParams],
                 cache := c.cache.Set cacheKeyGougingParams
                   (Value.gougingParams (c.b.GougingParams c.busState).1.1) tSet }) := by
  simp [cache.GougingParams, cache.isReady, hready, memoryCache.Get_of_none _ _ _ habsent,
    cache.busGougingParams, hok]

theorem cache.DownloadContracts_fresh {σ : Type} (c : worker.cache σ) (tGet tSet : Time)
    (l : List api.ContractMetadata) (expiry : Time)
    (hready : c.ready = true)
    (hentry : c.cache.items cacheKeyDownloadContracts
      = some { value := Value.contracts l, expiry := expiry })
    (hfresh : tGet ≤ expiry) :
    c.DownloadContracts tGet tSet = some ((l, none), c) := by
  have hnot : ¬ expiry < tGet := Nat.not_lt.mpr hfresh
  simp [cache.DownloadContracts, cache.isReady, hready, memoryCache.Get_of_some _ _ _ _ hentry,
    hnot, Value.assertContracts]

theorem cache.GougingParams_fresh {σ : Type} (pk : Packages) (c : worker.cache σ)
    (tGet tSet : Time) (gp : api.GougingParams) (expiry : Time)
    (hready : c.ready = true)
    (hentry : c.cache.items cacheKeyGougingParams
      = some { value := Value.gougingParams gp, expiry := expiry })
    (hfresh : tGet ≤ expiry) :
    c.GougingParams pk tGet tSet = some ((gp, none), c) := by
  have hnot : ¬ expiry < tGet := Nat.not_lt.mpr hfresh
  simp [cache.GougingParams, cache.isReady, hready, memoryCache.Get_of_some _ _ _ _ hentry,
    hnot, Value.assertGougingParams]

theorem cache.repeatDownloadContracts_fresh {σ : Type} (c : worker.cache σ)
    (l : List api.ContractMetadata) (expiry : Time)
    (hready : c.ready = true)
    (hentry : c.cache.items cacheKeyDownloadContracts
      = some { value := Value.contracts l, expiry := expiry })
    (ts : List (Time × Time)) (hts : ∀ t ∈ ts, t.1 ≤ expiry) :
    c.repeatDownloadContracts ts = some (ts.map (fun _ => (l, none)), c) := by
  induction ts with
  | nil => rfl
  | cons t rest ih =>
    have h1 : t.1 ≤ expiry := hts t (List.mem_cons_self _ _)
    have h2 : ∀ u ∈ rest, u.1 ≤ expiry := fun u hu => hts u (List.mem_cons_of_mem _ hu)
    simp [cache.repeatDownloadContracts,
      cache.DownloadContracts_fresh c t.1 t.2 l expiry hready hentry h1, ih h2]

theorem cache.repeatGougingParams_fresh {σ : Type} (pk : Packages) (c : worker.cache σ)
    (gp : api.GougingParams) (expiry : Time)
    (hready : c.ready = true)
    (hentry : c.cache.items cacheKeyGougingParams
      = some { value := Value.gougingParams gp, expiry := expiry })
    (ts : List (Time × Time)) (hts : ∀ t ∈ ts, t.1 ≤ expiry) :
    c.repeatGougingParams pk ts = some (ts.map (fun _ => (gp, none)), c) := by
  induction ts with
  | nil => rfl
  | cons t rest ih =>
    have h1 : t.1 ≤ expiry := hts t (List.mem_cons_self _ _)
    have h2 : ∀ u ∈ rest, u.1 ≤ expiry := fun u hu => hts u (List.mem_cons_of_mem _ hu)
    simp [cache.repeatGougingParams,
      cache.GougingParams_fresh pk c t.1 t.2 gp expiry hready hentry h1, ih h2]

/-- Claim C1.  In a ready cache whose store holds no entry for a kind and whose
bus fetch of that kind succeeds, a get of the kind makes exactly one bus call
(the fetch), returns the fetched value without error and stores it with the
expiry `tSet` plus five minutes; every sequence of following gets of the kind
that read the store no later than that expiry returns the same value each time
and leaves the cache, and so the list of bus calls, as it is. -/
theorem C1_miss_fetches_once_then_serves {σ : Type} (pk : Packages) (c : worker.cache σ)
    (tGet tSet : Time) (hready : c.ready = true) :
    (c.cache.items cacheKeyDownloadContracts = none → (c.b.Contracts c.busState).1.2 = none →
      ∃ c1 : worker.cache σ,
        c.DownloadContracts tGet tSet = some (((c.b.Contracts c.busState).1.1, none), c1) ∧
        c1.calls = c.calls ++ [BusCall.Contracts] ∧
        c1.cache.items cacheKeyDownloadContracts =
          some { value := Value.contracts (c.b.Contracts c.busState).1.1,
                 expiry := tSet + 5 * 60 * 1000000000 } ∧
        ∀ ts : List (Time × Time), (∀ t ∈ ts, t.1 ≤ tSet + 5 * 60 * 1000000000) →
          c1.repeatDownloadContracts ts =
            some (ts.map (fun _ => ((c.b.Contracts c.busState).1.1, none)), c1)) ∧
    (c.cache.items cacheKeyGougingParams = none → (c.b.GougingParams c.busState).1.2 = none →
      ∃ c1 : worker.cache σ,
        c.GougingParams pk tGet tSet = some (((c.b.GougingParams c.busState).1.1, none), c1) ∧
        c1.calls = c.calls ++ [BusCall.GougingParams] ∧
        c1.cache.items cacheKeyGougingParams =
          some { value := Value.gougingParams (c.b.GougingParams c.busState).1.1,
                 expiry := tSet + 5 * 60 * 1000000000 } ∧
        ∀ ts : List (Time × Time), (∀ t ∈ ts, t.1 ≤ tSet + 5 * 60 * 1000000000) →
          c1.repeatGougingParams pk ts =
            some (ts.map (fun _ => ((c.b.GougingParams c.busState).1.1, none)), c1)) := by
  constructor
  · intro habsent hok
    refine ⟨_, cache.DownloadContracts_miss c tGet tSet hready habsent hok, rfl, ?_, ?_⟩
    · simp [memoryCache.items_Set, cacheEntryExpiry]
    · intro ts hts
      refine cache.repeatDownloadContracts_fresh _ _ (tSet + 5 * 60 * 1000000000) ?_ ?_ ts hts
      · exact hready
      · simp [memoryCache.items_Set, cacheEntryExpiry]
  · intro habsent hok
    refine ⟨_, cache.GougingParams_miss pk c tGet tSet hready habsent hok, rfl, ?_, ?_⟩
    · simp [memoryCache.items_Set, cacheEntryExpiry]
    · intro ts hts
      refine cache.repeatGougingParams_fresh pk _ _ (tSet + 5 * 60 * 1000000000) ?_ ?_ ts hts
      · exact hready
      · simp [memoryCache.items_Set, cacheEntryExpiry]

/-- Witness of claim C1: a ready cache with an empty store over a bus that
returns the contracts `a`, `b` and the gouging parameters of height 100. -/
theorem C1_miss_fetches_once_then_serves_witness :
    (exampleCache (exampleBus ([exampleContract 0xa, exampleContract 0xb], none)
        (exampleGougingParams 100, none) (fun _ => none)) true none none).ready = true ∧
    (exampleCache (exampleBus ([exampleContract 0xa, exampleContract 0xb], none)
        (exampleGougingParams 100, none) (fun _ => none)) true none none).cache.items
        cacheKeyDownloadContracts = none ∧
    (exampleCache (exampleBus ([exampleContract 0xa, exampleContract 0xb], none)
        (exampleGougingParams 100, none) (fun _ => none)) true none none).cache.items
        cacheKeyGougingParams = none ∧
    (∃ c1 : worker.cache Unit,
      (exampleCache (exampleBus ([exampleContract 0xa, exampleContract 0xb], none)
        (exampleGougingParams 100, none) (fun _ => none)) true none none).DownloadContracts 10 11
        = some (([exampleContract 0xa, exampleContract 0xb], none), c1) ∧
      c1.calls = [BusCall.Contracts] ∧
      c1.repeatDownloadContracts [(12, 13), (300000000011, 300000000012)]
        = some ([([exampleContract 0xa, exampleContract 0xb], none),
                 ([exampleContract 0xa, exampleContract 0xb], none)], c1)) ∧
    (∃ c1 : worker.cache Unit,
      (exampleCache (exampleBus ([exampleContract 0xa, exampleContract 0xb], none)
        (exampleGougingParams 100, none) (fun _ => none)) true none none).GougingParams
        (examplePackages (api.Parsed.Other 0)) 10 11
        = some ((exampleGougingParams 100, none), c1) ∧
      c1.calls = [BusCall.GougingParams] ∧
      c1.repeatGougingParams (examplePackages (api.Parsed.Other 0))
          [(12, 13), (300000000011, 300000000012)]
        = some ([(exampleGougingParams 100, none), (exampleGougingParams 100, none)], c1)) := by
  refine ⟨rfl, by decide, by decide, ?_, ?_⟩
  · obtain ⟨c1, h1, h2, _, h4⟩ :=
      (C1_miss_fetches_once_then_serves (examplePackages (api.Parsed.Other 0))
        (exampleCache (exampleBus ([exampleContract 0xa, exampleContract 0xb], none)
          (exampleGougingParams 100, none) (fun _ => none)) true none none) 10 11 rfl).1
        (by decide) rfl
    exact ⟨c1, h1, h2, h4 [(12, 13), (300000000011, 300000000012)] (by decide)⟩
  · obtain ⟨c1, h1, h2, _, h4⟩ :=
      (C1_miss_fetches_once_then_serves (examplePackages (api.Parsed.Other 0))
        (exampleCache (exampleBus ([exampleContract 0xa, exampleContract 0xb], none)
          (exampleGougingParams 100, none) (fun _ => none)) true none none) 10 11 rfl).2
        (by decide) rfl
    exact ⟨c1, h1, h2, h4 [(12, 13), (300000000011, 300000000012)] (by decide)⟩

/-- Claim C2.  In a cache that is not ready, whatever the store holds,
`DownloadContracts` and `GougingParams` make exactly one bus call (the fetch of
the kind), return the value and the error of the bus as they are, and leave the
store as it is; the outcome is the same for every content of the store, so
the store is not read. -/
theorem C2_not_ready_bypasses_store {σ : Type} (pk : Packages) (c : worker.cache σ)
    (tGet tSet : Time) (h : c.ready = false) :
    (∃ c1 : worker.cache σ,
      c.DownloadContracts tGet tSet = some ((c.b.Contracts c.busState).1, c1) ∧
      c1.cache = c.cache ∧ c1.calls = c.calls ++ [BusCall.Contracts] ∧ c1.ready = false) ∧
    (∃ c1 : worker.cache σ,
      c.GougingParams pk tGet tSet = some ((c.b.GougingParams c.busState).1, c1) ∧
      c1.cache = c.cache ∧ c1.calls = c.calls ++ [BusCall.GougingParams] ∧ c1.ready = false) ∧
    (∀ m : memoryCache,
      ({ c with cache := m } : worker.cache σ).DownloadContracts tGet tSet =
        some ((c.b.Contracts c.busState).1,
          { c with cache := m, busState := (c.b.Contracts c.busState).2,
                   logger := c.logger ++ [LogEntry.WarnNotReady],
                   calls := c.calls ++ [BusCall.Contracts] })) ∧
    (∀ m : memoryCache,
      ({ c with cache := m } : worker.cache σ).GougingParams pk tGet tSet =
        some ((c.b.GougingParams c.busState).1,
          { c with cache := m, busState := (c.b.GougingParams c.busState).2,
                   logger := c.logger ++ [LogEntry.WarnNotReady],
                   calls := c.calls ++ [BusCall.GougingParams] })) := by
  refine ⟨⟨_, cache.DownloadContracts_not_ready c tGet tSet h, rfl, rfl, h⟩,
    ⟨_, cache.GougingParams_not_ready pk c tGet tSet h, rfl, rfl, h⟩, ?_, ?_⟩
  · intro m
    exact cache.DownloadContracts_not_ready _ tGet tSet h
  · intro m
    exact cache.GougingParams_not_ready pk _ tGet tSet h

/-- Witness of claim C2: a cache that is not ready, whose store holds an
expired contract list, over a bus whose fetches fail. -/
theorem C2_not_ready_bypasses_store_witness :
    (exampleCache (exampleBus ([exampleContract 0xc], some (Error.external "down"))
        (exampleGougingParams 0, some (Error.external "down")) (fun _ => none)) false
        (some { value := Value.contracts [exampleContract 0xa], expiry := 5 }) none).ready = false ∧
    (∃ c1 : worker.cache Unit,
      (exampleCache (exampleBus ([exampleContract 0xc], some (Error.external "down"))
        (exampleGougingParams 0, some (Error.external "down")) (fun _ => none)) false
        (some { value := Value.contracts [exampleContract 0xa], expiry := 5 })
        none).DownloadContracts 10 11
        = some (([exampleContract 0xc], some (Error.external "down")), c1) ∧
      c1.cache = (exampleCache (exampleBus ([exampleContract 0xc], some (Error.external "down"))
        (exampleGougingParams 0, some (Error.external "down")) (fun _ => none)) false
        (some { value := Value.contracts [exampleContract 0xa], expiry := 5 }) none).cache ∧
      c1.calls = [BusCall.Contracts] ∧ c1.ready = false) :=
  ⟨rfl, (C2_not_ready_bypasses_store (examplePackages (api.Parsed.Other 0))
    (exampleCache (exampleBus ([exampleContract 0xc], some (Error.external "down"))
        (exampleGougingParams 0, some (Error.external "down")) (fun _ => none)) false
        (some { value := Value.contracts [exampleContract 0xa], expiry := 5 }) none) 10 11 rfl).1⟩

/-! ## The readiness flag and the registration loop -/

theorem cache.DownloadContracts_ready {σ : Type} (c : worker.cache σ) (tGet tSet : Time)
    (r : (List api.ContractMetadata × Option Error) × worker.cache σ)
    (h : c.DownloadContracts tGet tSet = some r) : r.2.ready = c.ready := by
  unfold cache.DownloadContracts at h
  simp only [cache.busContracts, cache.log] at h
  split at h
  · cases h; rfl
  · split at h
    · split at h
      · split at h
        · cases h
        · split at h <;> cases h <;> simp [memoryCache.reorderInPlace] <;> split <;> rfl
      · cases h; split <;> rfl
    · split at h
      · cases h
      · cases h; rfl

theorem cache.GougingParams_ready {σ : Type} (pk : Packages) (c : worker.cache σ)
    (tGet tSet : Time) (r : (api.GougingParams × Option Error) × worker.cache σ)
    (h : c.GougingParams pk tGet tSet = some r) : r.2.ready = c.ready := by
  unfold cache.GougingParams at h
  simp only [cache.busGougingParams, cache.log] at h
  split at h
  · cases h; rfl
  · split at h
    · split at h
      · split at h
        · cases h
        · cases h; split <;> split <;> rfl
      · cases h; split <;> rfl
    · split at h
      · cases h
      · cases h; rfl

theorem cache.handleConsensusUpdate_ready {σ : Type} (c c1 : worker.cache σ)
    (e : api.EventConsensusUpdate) (now : Time)
    (h : c.handleConsensusUpdate e now = some c1) : c1.ready = c.ready := by
  unfold cache.handleConsensusUpdate at h
  split at h
  split at h
  · cases h; rfl
  · split at h
    · cases h
    · cases h; rfl

theorem cache.handleContractArchive_ready {σ : Type} (c c1 : worker.cache σ)
    (e : api.EventContractArchive) (now : Time)
    (h : c.handleContractArchive e now = some c1) : c1.ready = c.ready := by
  unfold cache.handleContractArchive at h
  split at h
  split at h
  · cases h; rfl
  · split at h
    · cases h
    · cases h; rfl

theorem cache.handleContractRenew_ready {σ : Type} (c c1 : worker.cache σ)
    (e : api.EventContractRenew) (now : Time)
    (h : c.handleContractRenew e now = some c1) : c1.ready = c.ready := by
  unfold cache.handleContractRenew at h
  split at h
  split at h
  · cases h; rfl
  · split at h
    · cases h
    · cases h; rfl

theorem cache.handleSettingDelete_ready {σ : Type} (c : worker.cache σ)
    (e : api.EventSettingDelete) : (c.handleSettingDelete e).ready = c.ready := by
  unfold cache.handleSettingDelete
  split <;> rfl

theorem cache.handleSettingUpdate_ready {σ : Type} (pk : Packages) (c : worker.cache σ)
    (e : api.EventSettingUpdate) (now : Time) (r : Option Error × worker.cache σ)
    (h : c.handleSettingUpdate pk e now = some r) : r.2.ready = c.ready := by
  unfold cache.handleSettingUpdate at h
  split at h
  split at h
  · cases h; rfl
  · split at h
    · cases h
    · split at h
      · cases h; rfl
      · split at h
        · split at h
          · cases h; rfl
          · split at h <;> cases h <;> rfl
        · split at h
          · split at h
            · cases h; rfl
            · split at h <;> cases h <;> rfl
          · cases h; rfl

theorem cache.logOutcome_ready {σ : Type} (c : worker.cache σ) (err : Option Error) :
    (cache.logOutcome c err).2.ready = c.ready := by
  cases err <;> rfl

theorem cache.HandleEvent_ready {σ : Type} (pk : Packages) (c : worker.cache σ)
    (event : webhooks.Event) (now : Time) (r : Option Error × worker.cache σ)
    (h : c.HandleEvent pk event now = some r) : r.2.ready = c.ready := by
  unfold cache.HandleEvent at h
  split at h
  · cases h; rfl
  · split at h
    · simp only [Option.map_eq_some'] at h
      obtain ⟨c1, hc, rfl⟩ := h
      rw [cache.logOutcome_ready, cache.handleConsensusUpdate_ready c c1 _ now hc]
    · simp only [Option.map_eq_some'] at h
      obtain ⟨c1, hc, rfl⟩ := h
      rw [cache.logOutcome_ready, cache.handleContractArchive_ready c c1 _ now hc]
    · simp only [Option.map_eq_some'] at h
      obtain ⟨c1, hc, rfl⟩ := h
      rw [cache.logOutcome_ready, cache.handleContractRenew_ready c c1 _ now hc]
    · simp only [Option.map_eq_some'] at h
      obtain ⟨r1, hc, rfl⟩ := h
      rw [cache.logOutcome_ready, cache.handleSettingUpdate_ready pk c _ now r1 hc]
    · cases h
      rw [cache.logOutcome_ready, cache.handleSettingDelete_ready]
    · cases h; rfl

theorem cache.registerWebhooks_frame {σ : Type} (whs : List webhooks.Webhook)
    (c : worker.cache σ) :
    (cache.registerWebhooks whs c).2.ready = c.ready ∧
    (cache.registerWebhooks whs c).2.cache = c.cache ∧
    (cache.registerWebhooks whs c).2.logger = c.logger := by
  induction whs generalizing c with
  | nil => exact ⟨rfl, rfl, rfl⟩
  | cons wh rest ih =>
    unfold cache.registerWebhooks
    cases hr : (c.b.RegisterWebhook c.busState wh).1 with
    | some err => simp [cache.busRegisterWebhook, hr]
    | none =>
      simp only [cache.busRegisterWebhook, hr]
      exact ih _

theorem cache.registerWebhooks_calls {σ : Type} (whs : List webhooks.Webhook)
    (c : worker.cache σ) :
    ((cache.registerWebhooks whs c).1 = none ∧
      (cache.registerWebhooks whs c).2.calls
        = c.calls ++ whs.map (fun w => BusCall.RegisterWebhook w false)) ∨
    (∃ pre wh post err, whs = pre ++ wh :: post ∧
      (cache.registerWebhooks whs c).1 = some (Error.registerWebhook wh err) ∧
      (cache.registerWebhooks whs c).2.calls
        = c.calls ++ (pre.map (fun w => BusCall.RegisterWebhook w false)
            ++ [BusCall.RegisterWebhook wh true])) := by
  induction whs generalizing c with
  | nil => left; simp [cache.registerWebhooks]
  | cons wh rest ih =>
    unfold cache.registerWebhooks
    cases hr : (c.b.RegisterWebhook c.busState wh).1 with
    | some err =>
      right
      exact ⟨[], wh, rest, err, rfl, by simp [cache.busRegisterWebhook, hr],
        by simp [cache.busRegisterWebhook, hr]⟩
    | none =>
      simp only [cache.busRegisterWebhook, hr]
      rcases ih { c with busState := (c.b.RegisterWebhook c.busState wh).2,
                         calls := c.calls ++ [BusCall.RegisterWebhook wh (none : Option Error).isSome] } with
        ⟨h1, h2⟩ | ⟨pre, w, post, err, h1, h2, h3⟩
      · left
        refine ⟨h1, ?_⟩
        rw [h2]
        simp
      · right
        refine ⟨wh :: pre, w, post, err, by simp [h1], h2, ?_⟩
        rw [h3]
        simp


theorem cache.Initialize_of_none {σ : Type} (c : worker.cache σ) (workerAPI : String)
    (h1 : (cache.registerWebhooks (cache.initWebhooks (workerAPI ++ "/events")) c).1 = none) :
    c.Initialize workerAPI
      = (none, { (cache.registerWebhooks (cache.initWebhooks (workerAPI ++ "/events")) c).2
                  with ready := true }) := by
  unfold cache.Initialize
  simp only
  split
  · rename_i err c1 heq
    rw [heq] at h1
    simp at h1
  · rename_i c1 heq
    rw [heq]

theorem cache.Initialize_of_some {σ : Type} (c : worker.cache σ) (workerAPI : String)
    (e : Error)
    (h1 : (cache.registerWebhooks (cache.initWebhooks (workerAPI ++ "/events")) c).1 = some e) :
    c.Initialize workerAPI
      = (some e, (cache.registerWebhooks (cache.initWebhooks (workerAPI ++ "/events")) c).2) := by
  unfold cache.Initialize
  simp only
  split
  · rename_i err c1 heq
    rw [heq] at h1
    simp at h1
    rw [heq, h1]
  · rename_i c1 heq
    rw [heq] at h1
    simp at h1

/-- Claim C7.  On a cache that is not ready, `Initialize` returns an error
exactly when one of the registrations it attempts is refused by the bus; in
that case the refused registration is the last bus call made (the webhooks
after it in the list are not attempted, those before it were accepted) and the
readiness flag is still false; when no registration is refused all webhooks of
the list were registered, no error is returned and the flag is true.  No
operation of the cache turns a true readiness flag into false. -/
theorem C7_initialize_all_or_nothing {σ : Type} (pk : Packages) (c : worker.cache σ)
    (workerAPI : String) (h : c.ready = false) :
    (∃ attempts : List BusCall,
      (c.Initialize workerAPI).2.calls = c.calls ++ attempts ∧
      ((c.Initialize workerAPI).1.isSome = true ↔
        ∃ wh, BusCall.RegisterWebhook wh true ∈ attempts) ∧
      ((c.Initialize workerAPI).1.isSome = true →
        (c.Initialize workerAPI).2.ready = false ∧
        ∃ pre wh post, cache.initWebhooks (workerAPI ++ "/events") = pre ++ wh :: post ∧
          attempts = pre.map (fun w => BusCall.RegisterWebhook w false)
            ++ [BusCall.RegisterWebhook wh true]) ∧
      ((c.Initialize workerAPI).1 = none →
        (c.Initialize workerAPI).2.ready = true ∧
        attempts = (cache.initWebhooks (workerAPI ++ "/events")).map
          (fun w => BusCall.RegisterWebhook w false))) ∧
    (∀ c0 : worker.cache σ, c0.ready = true →
      (c0.Initialize workerAPI).2.ready = true ∧
      (∀ tGet tSet r, c0.DownloadContracts tGet tSet = some r → r.2.ready = true) ∧
      (∀ tGet tSet r, c0.GougingParams pk tGet tSet = some r → r.2.ready = true) ∧
      (∀ event now r, c0.HandleEvent pk event now = some r → r.2.ready = true)) := by
  constructor
  · have hframe := cache.registerWebhooks_frame (cache.initWebhooks (workerAPI ++ "/events")) c
    rcases cache.registerWebhooks_calls (cache.initWebhooks (workerAPI ++ "/events")) c with
      ⟨h1, h2⟩ | ⟨pre, wh, post, err, h1, h2, h3⟩
    · have hI := cache.Initialize_of_none c workerAPI h1
      refine ⟨(cache.initWebhooks (workerAPI ++ "/events")).map
          (fun w => BusCall.RegisterWebhook w false), ?_, ?_, ?_, ?_⟩
      · rw [hI]; exact h2
      · rw [hI]
        simp
      · rw [hI]
        simp
      · intro _
        rw [hI]
        exact ⟨rfl, rfl⟩
    · have hI := cache.Initialize_of_some c workerAPI _ h2
      refine ⟨pre.map (fun w => BusCall.RegisterWebhook w false)
          ++ [BusCall.RegisterWebhook wh true], ?_, ?_, ?_, ?_⟩
      · rw [hI]; exact h3
      · rw [hI]
        simp
      · intro _
        rw [hI]
        exact ⟨by rw [hframe.1, h], pre, wh, post, h1, rfl⟩
      · rw [hI]
        intro hn
        simp at hn
  · intro c0 h0
    refine ⟨?_, ?_, ?_, ?_⟩
    · have hframe := cache.registerWebhooks_frame (cache.initWebhooks (workerAPI ++ "/events")) c0
      cases he : (cache.registerWebhooks (cache.initWebhooks (workerAPI ++ "/events")) c0).1 with
      | none => rw [cache.Initialize_of_none c0 workerAPI he]
      | some err =>
        rw [cache.Initialize_of_some c0 workerAPI err he]
        show (cache.registerWebhooks (cache.initWebhooks (workerAPI ++ "/events")) c0).2.ready = true
        rw [hframe.1, h0]
    · intro tGet tSet r hr
      rw [cache.DownloadContracts_ready c0 tGet tSet r hr, h0]
    · intro tGet tSet r hr
      rw [cache.GougingParams_ready pk c0 tGet tSet r hr, h0]
    · intro event now r hr
      rw [cache.HandleEvent_ready pk c0 event now r hr, h0]

/-- Witness of claim C7: a new cache over a bus that refuses the registration
for renewals, the third of the list: two registrations are accepted, the third
is refused, the fourth is not attempted and the cache stays not ready. -/
theorem C7_initialize_all_or_nothing_witness :
    (NewCache (exampleBus ([], none) (exampleGougingParams 0, none)
      (fun wh => if wh.Event = webhooks.EventType.ContractRenew
        then some (Error.external "refused") else none)) ()).ready = false ∧
    (((NewCache (exampleBus ([], none) (exampleGougingParams 0, none)
      (fun wh => if wh.Event = webhooks.EventType.ContractRenew
        then some (Error.external "refused") else none)) ()).Initialize "http://worker").1.isSome
      = true ↔
      ∃ wh, BusCall.RegisterWebhook wh true ∈
        [BusCall.RegisterWebhook
            (webhooks.NewEventWebhook "http://worker/events" webhooks.EventType.ConsensusUpdate)
            false,
          BusCall.RegisterWebhook
            (webhooks.NewEventWebhook "http://worker/events" webhooks.EventType.ContractArchive)
            false,
          BusCall.RegisterWebhook
            (webhooks.NewEventWebhook "http://worker/events" webhooks.EventType.ContractRenew)
            true]) := by
  refine ⟨rfl, ?_⟩
  obtain ⟨attempts, h1, h2, _, _⟩ :=
    (C7_initialize_all_or_nothing (examplePackages (api.Parsed.Other 0))
      (NewCache (exampleBus ([], none) (exampleGougingParams 0, none)
        (fun wh => if wh.Event = webhooks.EventType.ContractRenew
          then some (Error.external "refused") else none)) ()) "http://worker" rfl).1
  have hcalls : ((NewCache (exampleBus ([], none) (exampleGougingParams 0, none)
      (fun wh => if wh.Event = webhooks.EventType.ContractRenew
        then some (Error.external "refused") else none)) ()).Initialize "http://worker").2.calls
      = [BusCall.RegisterWebhook
            (webhooks.NewEventWebhook "http://worker/events" webhooks.EventType.ConsensusUpdate)
            false,
          BusCall.RegisterWebhook
            (webhooks.NewEventWebhook "http://worker/events" webhooks.EventType.ContractArchive)
            false,
          BusCall.RegisterWebhook
            (webhooks.NewEventWebhook "http://worker/events" webhooks.EventType.ContractRenew)
            true] := by decide
  rw [hcalls] at h1
  have hnil : (NewCache (exampleBus ([], none) (exampleGougingParams 0, none)
      (fun wh => if wh.Event = webhooks.EventType.ContractRenew
        then some (Error.external "refused") else none)) ()).calls = [] := rfl
  rw [hnil, List.nil_append] at h1
  rw [h1]
  exact h2

/-! ## The updates of the contract list -/

theorem cache.archiveLoop_append (id : api.FileContractID)
    (pre rest : List api.ContractMetadata) :
    cache.archiveLoop id (pre ++ rest) pre.length rest = pre ++ removeFirstID id rest := by
  induction rest generalizing pre with
  | nil => simp [cache.archiveLoop, removeFirstID]
  | cons c rs ih =>
    unfold cache.archiveLoop
    by_cases hc : c.ID = id
    · simp [hc, removeFirstID]
    · have h := ih (pre ++ [c])
      simp only [List.append_assoc, List.singleton_append, List.length_append,
        List.length_singleton] at h
      simp [hc, removeFirstID, h]

theorem cache.archiveLoop_eq (id : api.FileContractID) (l : List api.ContractMetadata) :
    cache.archiveLoop id l 0 l = removeFirstID id l := by
  simpa using cache.archiveLoop_append id [] l

theorem cache.renewLoop_append (r : api.ContractMetadata)
    (pre rest : List api.ContractMetadata) :
    cache.renewLoop r (pre ++ rest) pre.length rest = pre ++ replaceFirstID r rest := by
  induction rest generalizing pre with
  | nil => simp [cache.renewLoop, replaceFirstID]
  | cons c rs ih =>
    unfold cache.renewLoop
    by_cases hc : c.ID = r.RenewedFrom
    · simp [hc, replaceFirstID]
    · have h := ih (pre ++ [c])
      simp only [List.append_assoc, List.singleton_append, List.length_append,
        List.length_singleton] at h
      simp [hc, replaceFirstID, h]

theorem cache.renewLoop_eq (r : api.ContractMetadata) (l : List api.ContractMetadata) :
    cache.renewLoop r l 0 l = replaceFirstID r l := by
  simpa using cache.renewLoop_append r [] l

theorem removeFirstID_length_of_mem (x : api.FileContractID) (l : List api.ContractMetadata)
    (h : ∃ c ∈ l, c.ID = x) : (removeFirstID x l).length + 1 = l.length := by
  induction l with
  | nil => simp at h
  | cons c cs ih =>
    by_cases hc : c.ID = x
    · simp [removeFirstID, hc]
    · have h1 : ∃ d ∈ cs, d.ID = x := by
        obtain ⟨d, hd, hx⟩ := h
        rcases List.mem_cons.mp hd with rfl | hd1
        · exact absurd hx hc
        · exact ⟨d, hd1, hx⟩
      simp [removeFirstID, hc, ih h1]

theorem removeFirstID_of_not_mem (x : api.FileContractID) (l : List api.ContractMetadata)
    (h : ∀ c ∈ l, c.ID ≠ x) : removeFirstID x l = l := by
  induction l with
  | nil => rfl
  | cons c cs ih =>
    have hc : ¬ c.ID = x := h c (List.mem_cons_self _ _)
    simp [removeFirstID, hc, ih (fun d hd => h d (List.mem_cons_of_mem _ hd))]

theorem removeFirstID_split (x : api.FileContractID) (l : List api.ContractMetadata)
    (h : ∃ c ∈ l, c.ID = x) :
    ∃ pre c post, l = pre ++ c :: post ∧ c.ID = x ∧ (∀ d ∈ pre, d.ID ≠ x) ∧
      removeFirstID x l = pre ++ post := by
  induction l with
  | nil => simp at h
  | cons c cs ih =>
    by_cases hc : c.ID = x
    · exact ⟨[], c, cs, rfl, hc, by simp, by simp [removeFirstID, hc]⟩
    · have h1 : ∃ d ∈ cs, d.ID = x := by
        obtain ⟨d, hd, hx⟩ := h
        rcases List.mem_cons.mp hd with rfl | hd1
        · exact absurd hx hc
        · exact ⟨d, hd1, hx⟩
      obtain ⟨pre, d, post, h2, h3, h4, h5⟩ := ih h1
      refine ⟨c :: pre, d, post, by simp [h2], h3, ?_, by simp [removeFirstID, hc, h5]⟩
      intro e he
      rcases List.mem_cons.mp he with rfl | he1
      · exact hc
      · exact h4 e he1

theorem replaceFirstID_length (r : api.ContractMetadata) (l : List api.ContractMetadata) :
    (replaceFirstID r l).length = l.length := by
  induction l with
  | nil => rfl
  | cons c cs ih =>
    by_cases hc : c.ID = r.RenewedFrom <;> simp [replaceFirstID, hc, ih]

theorem replaceFirstID_of_not_mem (r : api.ContractMetadata) (l : List api.ContractMetadata)
    (h : ∀ c ∈ l, c.ID ≠ r.RenewedFrom) : replaceFirstID r l = l := by
  induction l with
  | nil => rfl
  | cons c cs ih =>
    have hc : ¬ c.ID = r.RenewedFrom := h c (List.mem_cons_self _ _)
    simp [replaceFirstID, hc, ih (fun d hd => h d (List.mem_cons_of_mem _ hd))]

theorem replaceFirstID_split (r : api.ContractMetadata) (l : List api.ContractMetadata)
    (h : ∃ c ∈ l, c.ID = r.RenewedFrom) :
    ∃ pre c post, l = pre ++ c :: post ∧ c.ID = r.RenewedFrom ∧
      (∀ d ∈ pre, d.ID ≠ r.RenewedFrom) ∧ replaceFirstID r l = pre ++ r :: post := by
  induction l with
  | nil => simp at h
  | cons c cs ih =>
    by_cases hc : c.ID = r.RenewedFrom
    · exact ⟨[], c, cs, rfl, hc, by simp, by simp [replaceFirstID, hc]⟩
    · have h1 : ∃ d ∈ cs, d.ID = r.RenewedFrom := by
        obtain ⟨d, hd, hx⟩ := h
        rcases List.mem_cons.mp hd with rfl | hd1
        · exact absurd hx hc
        · exact ⟨d, hd1, hx⟩
      obtain ⟨pre, d, post, h2, h3, h4, h5⟩ := ih h1
      refine ⟨c :: pre, d, post, by simp [h2], h3, ?_, by simp [replaceFirstID, hc, h5]⟩
      intro e he
      rcases List.mem_cons.mp he with rfl | he1
      · exact hc
      · exact h4 e he1

theorem cache.HandleEvent_ContractArchive_absent {σ : Type} (pk : Packages) (c : worker.cache σ)
    (event : webhooks.Event) (e : api.EventContractArchive) (now : Time)
    (hparse : pk.ParseEventWebhook event = Except.ok (api.Parsed.ContractArchive e))
    (habsent : c.cache.items cacheKeyDownloadContracts = none) :
    c.HandleEvent pk event now = some (none, c.log LogEntry.InfoHandled) := by
  simp [cache.HandleEvent, hparse, cache.handleContractArchive,
    memoryCache.Get_of_none _ _ _ habsent, cache.logOutcome]

theorem cache.HandleEvent_ContractArchive_present {σ : Type} (pk : Packages)
    (c : worker.cache σ) (event : webhooks.Event) (e : api.EventContractArchive) (now : Time)
    (l : List api.ContractMetadata) (expiry : Time)
    (hparse : pk.ParseEventWebhook event = Except.ok (api.Parsed.ContractArchive e))
    (hentry : c.cache.items cacheKeyDownloadContracts
      = some { value := Value.contracts l, expiry := expiry }) :
    c.HandleEvent pk event now =
      some (none,
        ({ c with cache := c.cache.Set cacheKeyDownloadContracts
                    (Value.contracts (removeFirstID e.ContractID l)) now } : worker.cache σ).log
          LogEntry.InfoHandled) := by
  simp [cache.HandleEvent, hparse, cache.handleContractArchive,
    memoryCache.Get_of_some _ _ _ _ hentry, cache.logOutcome, Value.assertContracts,
    cache.archiveLoop_eq]

theorem cache.HandleEvent_ContractRenew_absent {σ : Type} (pk : Packages) (c : worker.cache σ)
    (event : webhooks.Event) (e : api.EventContractRenew) (now : Time)
    (hparse : pk.ParseEventWebhook event = Except.ok (api.Parsed.ContractRenew e))
    (habsent : c.cache.items cacheKeyDownloadContracts = none) :
    c.HandleEvent pk event now = some (none, c.log LogEntry.InfoHandled) := by
  simp [cache.HandleEvent, hparse, cache.handleContractRenew,
    memoryCache.Get_of_none _ _ _ habsent, cache.logOutcome]

theorem cache.HandleEvent_ContractRenew_present {σ : Type} (pk : Packages)
    (c : worker.cache σ) (event : webhooks.Event) (e : api.EventContractRenew) (now : Time)
    (l : List api.ContractMetadata) (expiry : Time)
    (hparse : pk.ParseEventWebhook event = Except.ok (api.Parsed.ContractRenew e))
    (hentry : c.cache.items cacheKeyDownloadContracts
      = some { value := Value.contracts l, expiry := expiry }) :
    c.HandleEvent pk event now =
      some (none,
        ({ c with cache := c.cache.Set cacheKeyDownloadContracts
                    (Value.contracts (replaceFirstID e.Renewal l)) now } : worker.cache σ).log
          LogEntry.InfoHandled) := by
  simp [cache.HandleEvent, hparse, cache.handleContractRenew,
    memoryCache.Get_of_some _ _ _ _ hentry, cache.logOutcome, Value.assertContracts,
    cache.renewLoop_eq]

/-! ## The claims about the staleness audit, the webhooks and the contract events -/

/-- Claim C3, evaluated where the code departs from it.  The store of a ready
cache holds the expired contract list `[b, a]`; the bus fails and returns, with
its error, a list of two contracts.  `DownloadContracts` returns the error of
the bus and makes no `Set`, yet the audit still runs: `contractsEqual` sorts
the cached slice in place, and the entry in the store, with its old expiry,
shows `[a, b]` afterwards. -/
theorem C3_failed_fetch_reorders_cached_list :
    (exampleCache (exampleBus ([exampleContract 0xd, exampleContract 0xc],
          some (Error.external "down")) (exampleGougingParams 0, none) (fun _ => none)) true
        (some { value := Value.contracts [exampleContract 0xb, exampleContract 0xa], expiry := 5 })
        none).cache.items cacheKeyDownloadContracts
      = some { value := Value.contracts [exampleContract 0xb, exampleContract 0xa], expiry := 5 } ∧
    ((exampleCache (exampleBus ([exampleContract 0xd, exampleContract 0xc],
          some (Error.external "down")) (exampleGougingParams 0, none) (fun _ => none)) true
        (some { value := Value.contracts [exampleContract 0xb, exampleContract 0xa], expiry := 5 })
        none).DownloadContracts 10 11).map
        (fun r => (r.1.2, r.2.cache.items cacheKeyDownloadContracts, r.2.calls))
      = some (some (Error.external "down"),
          some { value := Value.contracts [exampleContract 0xa, exampleContract 0xb], expiry := 5 },
          [BusCall.Contracts]) := by
  constructor <;> decide

/-- Claim C6, evaluated where the code departs from it.  The store of a ready
cache holds an expired contract list `[a]` and expired gouging parameters; the
bus fails both fetches (returning an empty list and the parameters of height
0).  Each get returns the error of the bus, and each still runs the audit
against the value returned with the error and logs the warning that the cache
is outdated. -/
theorem C6_drift_warning_on_failed_fetch :
    ((exampleCache (exampleBus ([], some (Error.external "down"))
          (exampleGougingParams 0, some (Error.external "down")) (fun _ => none)) true
        (some { value := Value.contracts [exampleContract 0xa], expiry := 5 })
        (some { value := Value.gougingParams (exampleGougingParams 100), expiry := 5 })
        ).DownloadContracts 10 11).map (fun r => (r.1.2, r.2.logger))
      = some (some (Error.external "down"), [LogEntry.WarnOutdated cacheKeyDownloadContracts]) ∧
    ((exampleCache (exampleBus ([], some (Error.external "down"))
          (exampleGougingParams 0, some (Error.external "down")) (fun _ => none)) true
        (some { value := Value.contracts [exampleContract 0xa], expiry := 5 })
        (some { value := Value.gougingParams (exampleGougingParams 100), expiry := 5 })
        ).GougingParams (examplePackages (api.Parsed.Other 0)) 10 11).map
        (fun r => (r.1.2, r.2.logger))
      = some (some (Error.external "down"), [LogEntry.WarnOutdated cacheKeyGougingParams]) := by
  constructor <;> decide

/-- Claim C8, evaluated where the code departs from it.  Over a bus that accepts
every registration, `Initialize` succeeds, makes the cache ready and has
registered four webhooks at the URL `workerAPI` followed by `/events`: for
consensus updates, contract archivals, contract renewals and setting updates.
No webhook is registered for the deletion of a setting, although `HandleEvent`
routes that event to `handleSettingDelete`, which drops the cached gouging
parameters. -/
theorem C8_no_webhook_for_setting_delete :
    ((NewCache (exampleBus ([], none) (exampleGougingParams 0, none) (fun _ => none))
        ()).Initialize "http://worker").1 = none ∧
    ((NewCache (exampleBus ([], none) (exampleGougingParams 0, none) (fun _ => none))
        ()).Initialize "http://worker").2.ready = true ∧
    ((NewCache (exampleBus ([], none) (exampleGougingParams 0, none) (fun _ => none))
        ()).Initialize "http://worker").2.calls
      = [BusCall.RegisterWebhook
            { URL := "http://worker/events", Event := webhooks.EventType.ConsensusUpdate } false,
          BusCall.RegisterWebhook
            { URL := "http://worker/events", Event := webhooks.EventType.ContractArchive } false,
          BusCall.RegisterWebhook
            { URL := "http://worker/events", Event := webhooks.EventType.ContractRenew } false,
          BusCall.RegisterWebhook
            { URL := "http://worker/events", Event := webhooks.EventType.SettingUpdate } false] ∧
    ((exampleCache (exampleBus ([], none) (exampleGougingParams 0, none) (fun _ => none)) true none
        (some { value := Value.gougingParams (exampleGougingParams 100), expiry := 500 })
        ).HandleEvent
        (examplePackages (api.Parsed.SettingDelete { Key := "gouging", Timestamp := 0 }))
        { Module := "setting", Event := "delete", Payload := "" } 10).map
        (fun r => (r.1, r.2.cache.items cacheKeyGougingParams, r.2.logger))
      = some (none, none, [LogEntry.InfoHandled]) := by
  refine ⟨by decide, by decide, by decide, by decide⟩

/-- Claim C9.  For an envelope that parses to the archival of the contract `x`:
when the store has no contract list, `HandleEvent` returns no error and leaves
the store as it is; when the store holds the contract list `l`, `HandleEvent`
returns no error and the store afterwards is the old one with the list under
the contracts key rewritten to `l` without its first element of ID `x`, the
other elements in their order.  If `x` occurs in `l` the new list is `l` with
exactly that one element left out, one shorter than `l`; if `x` does not occur
the new list is `l`. -/
theorem C9_contract_archive_removes_first_match {σ : Type} (pk : Packages)
    (c : worker.cache σ) (event : webhooks.Event) (e : api.EventContractArchive) (now : Time)
    (hparse : pk.ParseEventWebhook event = Except.ok (api.Parsed.ContractArchive e)) :
    (c.cache.items cacheKeyDownloadContracts = none →
      ∃ c1 : worker.cache σ, c.HandleEvent pk event now = some (none, c1) ∧
        c1.cache = c.cache) ∧
    (∀ (l : List api.ContractMetadata) (expiry : Time),
      c.cache.items cacheKeyDownloadContracts
        = some { value := Value.contracts l, expiry := expiry } →
      (∃ c1 : worker.cache σ, c.HandleEvent pk event now = some (none, c1) ∧
        c1.cache = c.cache.Set cacheKeyDownloadContracts
          (Value.contracts (removeFirstID e.ContractID l)) now) ∧
      ((∃ d ∈ l, d.ID = e.ContractID) →
        (removeFirstID e.ContractID l).length + 1 = l.length ∧
        ∃ pre d post, l = pre ++ d :: post ∧ d.ID = e.ContractID ∧
          (∀ f ∈ pre, f.ID ≠ e.ContractID) ∧ removeFirstID e.ContractID l = pre ++ post) ∧
      ((∀ d ∈ l, d.ID ≠ e.ContractID) → removeFirstID e.ContractID l = l)) := by
  constructor
  · intro habsent
    exact ⟨_, cache.HandleEvent_ContractArchive_absent pk c event e now hparse habsent, rfl⟩
  · intro l expiry hentry
    refine ⟨⟨_, cache.HandleEvent_ContractArchive_present pk c event e now l expiry hparse hentry,
      rfl⟩, ?_, ?_⟩
    · intro hmem
      exact ⟨removeFirstID_length_of_mem _ l hmem, removeFirstID_split _ l hmem⟩
    · intro hnot
      exact removeFirstID_of_not_mem _ l hnot

/-- Witness of claim C9: the store holds the contract list `[a, b]`, the
archival of `a` leaves the cached list `[b]`. -/
theorem C9_contract_archive_removes_first_match_witness :
    (examplePackages (api.Parsed.ContractArchive
        { ContractID := 0xa, Reason := "", Timestamp := 0 })).ParseEventWebhook
        { Module := "contract", Event := "archive", Payload := "" }
      = Except.ok (api.Parsed.ContractArchive
          { ContractID := 0xa, Reason := "", Timestamp := 0 }) ∧
    (exampleCache (exampleBus ([], none) (exampleGougingParams 0, none) (fun _ => none)) true
        (some { value := Value.contracts [exampleContract 0xa, exampleContract 0xb],
                expiry := 500 }) none).cache.items cacheKeyDownloadContracts
      = some { value := Value.contracts [exampleContract 0xa, exampleContract 0xb],
               expiry := 500 } ∧
    ∃ c1 : worker.cache Unit,
      (exampleCache (exampleBus ([], none) (exampleGougingParams 0, none) (fun _ => none)) true
        (some { value := Value.contracts [exampleContract 0xa, exampleContract 0xb],
                expiry := 500 }) none).HandleEvent
        (examplePackages (api.Parsed.ContractArchive
          { ContractID := 0xa, Reason := "", Timestamp := 0 }))
        { Module := "contract", Event := "archive", Payload := "" } 10 = some (none, c1) ∧
      (c1.cache.Get cacheKeyDownloadContracts 10).1 = Value.contracts [exampleContract 0xb] := by
  refine ⟨rfl, by decide, ?_⟩
  obtain ⟨c1, h1, h2⟩ :=
    ((C9_contract_archive_removes_first_match
      (examplePackages (api.Parsed.ContractArchive
        { ContractID := 0xa, Reason := "", Timestamp := 0 }))
      (exampleCache (exampleBus ([], none) (exampleGougingParams 0, none) (fun _ => none)) true
        (some { value := Value.contracts [exampleContract 0xa, exampleContract 0xb],
                expiry := 500 }) none)
      { Module := "contract", Event := "archive", Payload := "" }
      { ContractID := 0xa, Reason := "", Timestamp := 0 } 10 rfl).2
      [exampleContract 0xa, exampleContract 0xb] 500 (by decide)).1
  refine ⟨c1, h1, ?_⟩
  rw [h2]
  decide

/-- Claim C10.  For an envelope that parses to a renewal with the record `r`:
when the store has no contract list, `HandleEvent` returns no error and leaves
the store as it is; when the store holds the contract list `l`, `HandleEvent`
returns no error and the store afterwards is the old one with the list under
the contracts key rewritten to `l` with its first element of ID
`r.RenewedFrom` replaced by `r`.  The new list is as long as `l`; if the ID
occurs in `l` the new list differs from `l` at that one position only; if it
does not occur the new list is `l`. -/
theorem C10_contract_renew_replaces_first_match {σ : Type} (pk : Packages)
    (c : worker.cache σ) (event : webhooks.Event) (e : api.EventContractRenew) (now : Time)
    (hparse : pk.ParseEventWebhook event = Except.ok (api.Parsed.ContractRenew e)) :
    (c.cache.items cacheKeyDownloadContracts = none →
      ∃ c1 : worker.cache σ, c.HandleEvent pk event now = some (none, c1) ∧
        c1.cache = c.cache) ∧
    (∀ (l : List api.ContractMetadata) (expiry : Time),
      c.cache.items cacheKeyDownloadContracts
        = some { value := Value.contracts l, expiry := expiry } →
      (∃ c1 : worker.cache σ, c.HandleEvent pk event now = some (none, c1) ∧
        c1.cache = c.cache.Set cacheKeyDownloadContracts
          (Value.contracts (replaceFirstID e.Renewal l)) now) ∧
      (replaceFirstID e.Renewal l).length = l.length ∧
      ((∃ d ∈ l, d.ID = e.Renewal.RenewedFrom) →
        ∃ pre d post, l = pre ++ d :: post ∧ d.ID = e.Renewal.RenewedFrom ∧
          (∀ f ∈ pre, f.ID ≠ e.Renewal.RenewedFrom) ∧
          replaceFirstID e.Renewal l = pre ++ e.Renewal :: post) ∧
      ((∀ d ∈ l, d.ID ≠ e.Renewal.RenewedFrom) → replaceFirstID e.Renewal l = l)) := by
  constructor
  · intro habsent
    exact ⟨_, cache.HandleEvent_ContractRenew_absent pk c event e now hparse habsent, rfl⟩
  · intro l expiry hentry
    refine ⟨⟨_, cache.HandleEvent_ContractRenew_present pk c event e now l expiry hparse hentry,
      rfl⟩, replaceFirstID_length _ l, ?_, ?_⟩
    · intro hmem
      exact replaceFirstID_split _ l hmem
    · intro hnot
      exact replaceFirstID_of_not_mem _ l hnot

/-- Witness of claim C10: the store holds the contract list `[a]`, the renewal
of `a` into `c` leaves the cached list `[c]`. -/
theorem C10_contract_renew_replaces_first_match_witness :
    (examplePackages (api.Parsed.ContractRenew
        { Renewal := { ID := 0xc, RenewedFrom := 0xa, Terms := 0 },
          Timestamp := 0 })).ParseEventWebhook
        { Module := "contract", Event := "renew", Payload := "" }
      = Except.ok (api.Parsed.ContractRenew
          { Renewal := { ID := 0xc, RenewedFrom := 0xa, Terms := 0 }, Timestamp := 0 }) ∧
    (exampleCache (exampleBus ([], none) (exampleGougingParams 0, none) (fun _ => none)) true
        (some { value := Value.contracts [exampleContract 0xa], expiry := 500 })
        none).cache.items cacheKeyDownloadContracts
      = some { value := Value.contracts [exampleContract 0xa], expiry := 500 } ∧
    ∃ c1 : worker.cache Unit,
      (exampleCache (exampleBus ([], none) (exampleGougingParams 0, none) (fun _ => none)) true
        (some { value := Value.contracts [exampleContract 0xa], expiry := 500 })
        none).HandleEvent
        (examplePackages (api.Parsed.ContractRenew
          { Renewal := { ID := 0xc, RenewedFrom := 0xa, Terms := 0 }, Timestamp := 0 }))
        { Module := "contract", Event := "renew", Payload := "" } 10 = some (none, c1) ∧
      (c1.cache.Get cacheKeyDownloadContracts 10).1
        = Value.contracts [{ ID := 0xc, RenewedFrom := 0xa, Terms := 0 }] := by
  refine ⟨rfl, by decide, ?_⟩
  obtain ⟨c1, h1, h2⟩ :=
    ((C10_contract_renew_replaces_first_match
      (examplePackages (api.Parsed.ContractRenew
        { Renewal := { ID := 0xc, RenewedFrom := 0xa, Terms := 0 }, Timestamp := 0 }))
      (exampleCache (exampleBus ([], none) (exampleGougingParams 0, none) (fun _ => none)) true
        (some { value := Value.contracts [exampleContract 0xa], expiry := 500 }) none)
      { Module := "contract", Event := "renew", Payload := "" }
      { Renewal := { ID := 0xc, RenewedFrom := 0xa, Terms := 0 }, Timestamp := 0 } 10 rfl).2
      [exampleContract 0xa] 500 (by decide)).1
  refine ⟨c1, h1, ?_⟩
  rw [h2]
  decide

/-! ## Consensus updates -/

theorem cache.HandleEvent_ConsensusUpdate_absent {σ : Type} (pk : Packages) (c : worker.cache σ)
    (event : webhooks.Event) (e : api.EventConsensusUpdate) (now : Time)
    (hparse : pk.ParseEventWebhook event = Except.ok (api.Parsed.ConsensusUpdate e))
    (habsent : c.cache.items cacheKeyGougingParams = none) :
    c.HandleEvent pk event now = some (none, c.log LogEntry.InfoHandled) := by
  simp [cache.HandleEvent, hparse, cache.handleConsensusUpdate,
    memoryCache.Get_of_none _ _ _ habsent, cache.logOutcome]

theorem cache.HandleEvent_ConsensusUpdate_present {σ : Type} (pk : Packages)
    (c : worker.cache σ) (event : webhooks.Event) (e : api.EventConsensusUpdate) (now : Time)
    (gp : api.GougingParams) (expiry : Time)
    (hparse : pk.ParseEventWebhook event = Except.ok (api.Parsed.ConsensusUpdate e))
    (hentry : c.cache.items cacheKeyGougingParams
      = some { value := Value.gougingParams gp, expiry := expiry }) :
    c.HandleEvent pk event now =
      some (none,
        ({ c with cache := c.cache.Set cacheKeyGougingParams
                    (Value.gougingParams
                      { gp with ConsensusState := e.ConsensusState,
                                TransactionFee := e.TransactionFee }) now } : worker.cache σ).log
          LogEntry.InfoHandled) := by
  simp [cache.HandleEvent, hparse, cache.handleConsensusUpdate,
    memoryCache.Get_of_some _ _ _ _ hentry, cache.logOutcome, Value.assertGougingParams]

theorem cache.GougingParams_absent {σ : Type} (pk : Packages) (c : worker.cache σ)
    (tGet tSet : Time)
    (hready : c.ready = true) (habsent : c.cache.items cacheKeyGougingParams = none) :
    ∃ c1 : worker.cache σ,
      c.GougingParams pk tGet tSet = some ((c.b.GougingParams c.busState).1, c1) ∧
      c1.calls = c.calls ++ [BusCall.GougingParams] ∧ c1.logger = c.logger := by
  cases herr : (c.b.GougingParams c.busState).1.2 with
  | none =>
    refine ⟨{ c with busState := (c.b.GougingParams c.busState).2,
                     calls := c.calls ++ [BusCall.GougingParams],
                     cache := c.cache.Set cacheKeyGougingParams
                       (Value.gougingParams (c.b.GougingParams c.busState).1.1) tSet },
      ?_, rfl, rfl⟩
    rw [cache.GougingParams_miss pk c tGet tSet hready habsent herr]
    rw [← herr]
  | some err =>
    refine ⟨{ c with busState := (c.b.GougingParams c.busState).2,
                     calls := c.calls ++ [BusCall.GougingParams] }, ?_, rfl, rfl⟩
    simp [cache.GougingParams, cache.isReady, hready, memoryCache.Get_of_none _ _ _ habsent,
      cache.busGougingParams, herr]
    rw [← herr]

theorem cacheKey_ne : cacheKeyDownloadContracts ≠ cacheKeyGougingParams := by decide

/-- Claim C11.  For an envelope that parses to a consensus update `e`: when the
store has no gouging parameters, `HandleEvent` returns no error and leaves the
store as it is, so no entry is created and the next `GougingParams` of a ready
cache makes a bus call; when the store holds the bundle `gp`, `HandleEvent`
returns no error and rewrites the entry to a bundle with the consensus state
and the transaction fee of `e` and the gouging and redundancy settings of `gp`,
and the entry of the contract list is as before. -/
theorem C11_consensus_update_patches_two_fields {σ : Type} (pk : Packages)
    (c : worker.cache σ) (event : webhooks.Event) (e : api.EventConsensusUpdate) (now : Time)
    (hparse : pk.ParseEventWebhook event = Except.ok (api.Parsed.ConsensusUpdate e)) :
    (c.cache.items cacheKeyGougingParams = none →
      ∃ c1 : worker.cache σ, c.HandleEvent pk event now = some (none, c1) ∧
        c1.cache = c.cache ∧
        (c.ready = true → ∀ tGet tSet : Time, ∃ c2 : worker.cache σ,
          c1.GougingParams pk tGet tSet = some ((c.b.GougingParams c.busState).1, c2) ∧
          c2.calls = c.calls ++ [BusCall.GougingParams])) ∧
    (∀ (gp : api.GougingParams) (expiry : Time),
      c.cache.items cacheKeyGougingParams
        = some { value := Value.gougingParams gp, expiry := expiry } →
      ∃ (c1 : worker.cache σ) (gp1 : api.GougingParams),
        c.HandleEvent pk event now = some (none, c1) ∧
        c1.cache = c.cache.Set cacheKeyGougingParams (Value.gougingParams gp1) now ∧
        gp1.ConsensusState = e.ConsensusState ∧
        gp1.TransactionFee = e.TransactionFee ∧
        gp1.GougingSettings = gp.GougingSettings ∧
        gp1.RedundancySettings = gp.RedundancySettings ∧
        c1.cache.items cacheKeyDownloadContracts = c.cache.items cacheKeyDownloadContracts) := by
  constructor
  · intro habsent
    refine ⟨_, cache.HandleEvent_ConsensusUpdate_absent pk c event e now hparse habsent, rfl, ?_⟩
    intro hready tGet tSet
    obtain ⟨c2, h1, h2, _⟩ :=
      cache.GougingParams_absent pk (c.log LogEntry.InfoHandled) tGet tSet hready habsent
    exact ⟨c2, h1, h2⟩
  · intro gp expiry hentry
    refine ⟨_, _, cache.HandleEvent_ConsensusUpdate_present pk c event e now gp expiry hparse
      hentry, rfl, rfl, rfl, rfl, rfl, ?_⟩
    simp [cache.log, memoryCache.items_Set, cacheKey_ne]

/-- Witness of claim C11: the store holds the gouging parameters of height 100
and the contract list `[a]`; a consensus update of height 101 with fee 7 is
handled. -/
theorem C11_consensus_update_patches_two_fields_witness :
    (examplePackages (api.Parsed.ConsensusUpdate
        { ConsensusState := { BlockHeight := 101, LastBlockTime := 9, Synced := true },
          TransactionFee := 7, Timestamp := 9 })).ParseEventWebhook
        { Module := "consensus", Event := "update", Payload := "" }
      = Except.ok (api.Parsed.ConsensusUpdate
        { ConsensusState := { BlockHeight := 101, LastBlockTime := 9, Synced := true },
          TransactionFee := 7, Timestamp := 9 }) ∧
    (exampleCache (exampleBus ([], none) (exampleGougingParams 0, none) (fun _ => none)) true
        (some { value := Value.contracts [exampleContract 0xa], expiry := 500 })
        (some { value := Value.gougingParams (exampleGougingParams 100), expiry := 500 })
        ).cache.items cacheKeyGougingParams
      = some { value := Value.gougingParams (exampleGougingParams 100), expiry := 500 } ∧
    ∃ (c1 : worker.cache Unit) (gp1 : api.GougingParams),
      (exampleCache (exampleBus ([], none) (exampleGougingParams 0, none) (fun _ => none)) true
        (some { value := Value.contracts [exampleContract 0xa], expiry := 500 })
        (some { value := Value.gougingParams (exampleGougingParams 100), expiry := 500 })
        ).HandleEvent
        (examplePackages (api.Parsed.ConsensusUpdate
          { ConsensusState := { BlockHeight := 101, LastBlockTime := 9, Synced := true },
            TransactionFee := 7, Timestamp := 9 }))
        { Module := "consensus", Event := "update", Payload := "" } 10 = some (none, c1) ∧
      (c1.cache.Get cacheKeyGougingParams 10).1 = Value.gougingParams gp1 ∧
      gp1.ConsensusState = { BlockHeight := 101, LastBlockTime := 9, Synced := true } ∧
      gp1.TransactionFee = 7 ∧
      gp1.GougingSettings = (exampleGougingParams 100).GougingSettings ∧
      gp1.RedundancySettings = (exampleGougingParams 100).RedundancySettings := by
  refine ⟨rfl, by decide, ?_⟩
  obtain ⟨c1, gp1, h1, h2, h3, h4, h5, h6, _⟩ :=
    (C11_consensus_update_patches_two_fields
      (examplePackages (api.Parsed.ConsensusUpdate
        { ConsensusState := { BlockHeight := 101, LastBlockTime := 9, Synced := true },
          TransactionFee := 7, Timestamp := 9 }))
      (exampleCache (exampleBus ([], none) (exampleGougingParams 0, none) (fun _ => none)) true
        (some { value := Value.contracts [exampleContract 0xa], expiry := 500 })
        (some { value := Value.gougingParams (exampleGougingParams 100), expiry := 500 }))
      { Module := "consensus", Event := "update", Payload := "" }
      { ConsensusState := { BlockHeight := 101, LastBlockTime := 9, Synced := true },
        TransactionFee := 7, Timestamp := 9 } 10 rfl).2
      (exampleGougingParams 100) 500 (by decide)
  refine ⟨c1, gp1, h1, ?_, h3, h4, h5, h6⟩
  rw [h2]
  exact congrArg Prod.fst
    (memoryCache.Get_of_some _ cacheKeyGougingParams 10
      { value := Value.gougingParams gp1, expiry := 10 + cacheEntryExpiry }
      (by simp [memoryCache.items_Set]))

/-- Claim C12 fails as stated: gouging parameters cached with the expiry
instant 500 and patched by a consensus update at instant 10 have the expiry
instant 10 plus five minutes afterwards, not 500. -/
theorem C12_expiry_not_preserved :
    ((exampleCache (exampleBus ([], none) (exampleGougingParams 0, none) (fun _ => none)) true
        none (some { value := Value.gougingParams (exampleGougingParams 100), expiry := 500 })
        ).HandleEvent
        (examplePackages (api.Parsed.ConsensusUpdate
          { ConsensusState := { BlockHeight := 101, LastBlockTime := 9, Synced := true },
            TransactionFee := 7, Timestamp := 9 }))
        { Module := "consensus", Event := "update", Payload := "" } 10).map
        (fun r => (r.2.cache.items cacheKeyGougingParams).map (fun entry => entry.expiry))
      = some (some 300000000010) ∧
    ((exampleCache (exampleBus ([], none) (exampleGougingParams 0, none) (fun _ => none)) true
        none (some { value := Value.gougingParams (exampleGougingParams 100), expiry := 500 })
        ).cache.items cacheKeyGougingParams).map (fun entry => entry.expiry) = some 500 ∧
    ((exampleCache (exampleBus ([], none) (exampleGougingParams 0, none) (fun _ => none)) true
        none (some { value := Value.gougingParams (exampleGougingParams 100), expiry := 500 })
        ).HandleEvent
        (examplePackages (api.Parsed.ConsensusUpdate
          { ConsensusState := { BlockHeight := 101, LastBlockTime := 9, Synced := true },
            TransactionFee := 7, Timestamp := 9 }))
        { Module := "consensus", Event := "update", Payload := "" } 10).map
        (fun r => (r.2.cache.items cacheKeyGougingParams).map (fun entry => entry.expiry))
      ≠ some (((exampleCache (exampleBus ([], none) (exampleGougingParams 0, none)
          (fun _ => none)) true none
          (some { value := Value.gougingParams (exampleGougingParams 100), expiry := 500 })
          ).cache.items cacheKeyGougingParams).map (fun entry => entry.expiry)) := by
  refine ⟨by decide, by decide, by decide⟩

/-- Claim C12 as amended.  When the store holds gouging parameters and an
envelope that parses to a consensus update is handled at instant `now`, the
entry afterwards has the expiry instant `now` plus five minutes, whatever its
expiry instant was before: the patch resets the lifetime of the entry. -/
theorem C12_consensus_update_resets_expiry {σ : Type} (pk : Packages)
    (c : worker.cache σ) (event : webhooks.Event) (e : api.EventConsensusUpdate) (now : Time)
    (gp : api.GougingParams) (expiry : Time)
    (hparse : pk.ParseEventWebhook event = Except.ok (api.Parsed.ConsensusUpdate e))
    (hentry : c.cache.items cacheKeyGougingParams
      = some { value := Value.gougingParams gp, expiry := expiry }) :
    ∃ (c1 : worker.cache σ) (entry : cacheEntry),
      c.HandleEvent pk event now = some (none, c1) ∧
      c1.cache.items cacheKeyGougingParams = some entry ∧
      entry.expiry = now + 5 * 60 * 1000000000 := by
  refine ⟨_,
    { value := Value.gougingParams
        { gp with ConsensusState := e.ConsensusState, TransactionFee := e.TransactionFee },
      expiry := now + 5 * 60 * 1000000000 },
    cache.HandleEvent_ConsensusUpdate_present pk c event e now gp expiry hparse hentry, ?_, rfl⟩
  simp [cache.log, memoryCache.items_Set, cacheEntryExpiry]

/-- Witness of the amended claim C12: the entry with expiry instant 500 patched
at instant 10. -/
theorem C12_consensus_update_resets_expiry_witness :
    (examplePackages (api.Parsed.ConsensusUpdate
        { ConsensusState := { BlockHeight := 101, LastBlockTime := 9, Synced := true },
          TransactionFee := 7, Timestamp := 9 })).ParseEventWebhook
        { Module := "consensus", Event := "update", Payload := "" }
      = Except.ok (api.Parsed.ConsensusUpdate
        { ConsensusState := { BlockHeight := 101, LastBlockTime := 9, Synced := true },
          TransactionFee := 7, Timestamp := 9 }) ∧
    (exampleCache (exampleBus ([], none) (exampleGougingParams 0, none) (fun _ => none)) true
        none (some { value := Value.gougingParams (exampleGougingParams 100), expiry := 500 })
        ).cache.items cacheKeyGougingParams
      = some { value := Value.gougingParams (exampleGougingParams 100), expiry := 500 } ∧
    ∃ (c1 : worker.cache Unit) (entry : cacheEntry),
      (exampleCache (exampleBus ([], none) (exampleGougingParams 0, none) (fun _ => none)) true
        none (some { value := Value.gougingParams (exampleGougingParams 100), expiry := 500 })
        ).HandleEvent
        (examplePackages (api.Parsed.ConsensusUpdate
          { ConsensusState := { BlockHeight := 101, LastBlockTime := 9, Synced := true },
            TransactionFee := 7, Timestamp := 9 }))
        { Module := "consensus", Event := "update", Payload := "" } 10 = some (none, c1) ∧
      c1.cache.items cacheKeyGougingParams = some entry ∧
      entry.expiry = 10 + 5 * 60 * 1000000000 :=
  ⟨rfl, by decide,
    C12_consensus_update_resets_expiry
      (examplePackages (api.Parsed.ConsensusUpdate
        { ConsensusState := { BlockHeight := 101, LastBlockTime := 9, Synced := true },
          TransactionFee := 7, Timestamp := 9 }))
      (exampleCache (exampleBus ([], none) (exampleGougingParams 0, none) (fun _ => none)) true
        none (some { value := Value.gougingParams (exampleGougingParams 100), expiry := 500 }))
      { Module := "consensus", Event := "update", Payload := "" }
      { ConsensusState := { BlockHeight := 101, LastBlockTime := 9, Synced := true },
        TransactionFee := 7, Timestamp := 9 } 10 (exampleGougingParams 100) 500 rfl
      (by decide)⟩

/-! ## Setting updates -/

theorem cache.HandleEvent_SettingUpdate_absent {σ : Type} (pk : Packages) (c : worker.cache σ)
    (event : webhooks.Event) (e : api.EventSettingUpdate) (now : Time)
    (hparse : pk.ParseEventWebhook event = Except.ok (api.Parsed.SettingUpdate e))
    (habsent : c.cache.items cacheKeyGougingParams = none) :
    c.HandleEvent pk event now = some (none, c.log LogEntry.InfoHandled) := by
  simp [cache.HandleEvent, hparse, cache.handleSettingUpdate,
    memoryCache.Get_of_none _ _ _ habsent, cache.logOutcome]

theorem cache.HandleEvent_SettingUpdate_gouging_invalid {σ : Type} (pk : Packages)
    (c : worker.cache σ) (event : webhooks.Event) (e : api.EventSettingUpdate) (now : Time)
    (gp : api.GougingParams) (expiry : Time)
    (hparse : pk.ParseEventWebhook event = Except.ok (api.Parsed.SettingUpdate e))
    (hkey : e.Key = api.SettingGouging)
    (hinvalid : gougingUpdateInvalid pk e.Update = true)
    (hentry : c.cache.items cacheKeyGougingParams
      = some { value := Value.gougingParams gp, expiry := expiry }) :
    ∃ err : Error, c.HandleEvent pk event now = some (some err, c.log LogEntry.ErrorHandle) := by
  unfold gougingUpdateInvalid at hinvalid
  cases hm : pk.Marshal e.Update with
  | error err =>
    exact ⟨Error.marshal err, by
      simp [cache.HandleEvent, hparse, cache.handleSettingUpdate,
        memoryCache.Get_of_some _ _ _ _ hentry, cache.logOutcome, Value.assertGougingParams, hm]⟩
  | ok data =>
    simp only [hm] at hinvalid
    cases hu : pk.UnmarshalGougingSettings data with
    | error err =>
      exact ⟨Error.gougingBody, by
        simp [cache.HandleEvent, hparse, cache.handleSettingUpdate,
          memoryCache.Get_of_some _ _ _ _ hentry, cache.logOutcome, Value.assertGougingParams,
          hm, hkey, hu]⟩
    | ok gs =>
      simp only [hu] at hinvalid
      cases hv : pk.ValidateGougingSettings gs with
      | none => simp [hv] at hinvalid
      | some err =>
        exact ⟨Error.gougingValidate err, by
          simp [cache.HandleEvent, hparse, cache.handleSettingUpdate,
            memoryCache.Get_of_some _ _ _ _ hentry, cache.logOutcome,
            Value.assertGougingParams, hm, hkey, hu, hv]⟩

/-- Claim C13 fails as stated: with no gouging parameters in the store, a
setting update for the gouging key whose payload does not deserialize is
handled without an error (the handler returns before it looks at the payload);
the store is still empty afterwards. -/
theorem C13_no_error_when_entry_absent :
    gougingUpdateInvalid
        (examplePackages (api.Parsed.SettingUpdate
          { Key := "gouging", Update := "not gouging settings", Timestamp := 0 }))
        "not gouging settings" = true ∧
    ((exampleCache (exampleBus ([], none) (exampleGougingParams 0, none) (fun _ => none)) true
        none none).HandleEvent
        (examplePackages (api.Parsed.SettingUpdate
          { Key := "gouging", Update := "not gouging settings", Timestamp := 0 }))
        { Module := "setting", Event := "update", Payload := "" } 10).map
        (fun r => (r.1, r.2.cache.items cacheKeyGougingParams, r.2.logger))
      = some (none, none, [LogEntry.InfoHandled]) := by
  refine ⟨by decide, by decide⟩

/-- Claim C13 as amended.  For an envelope that parses to a setting update
for the gouging key whose payload does not deserialize into gouging settings
or fails their validation: when the store holds gouging parameters,
`HandleEvent` returns an error and leaves the store as it is, so the entry
keeps its value; when the store holds no gouging parameters, `HandleEvent`
returns no error and leaves the store as it is, so no entry is created. -/
theorem C13_invalid_gouging_update_leaves_store {σ : Type} (pk : Packages)
    (c : worker.cache σ) (event : webhooks.Event) (e : api.EventSettingUpdate) (now : Time)
    (hparse : pk.ParseEventWebhook event = Except.ok (api.Parsed.SettingUpdate e))
    (hkey : e.Key = api.SettingGouging)
    (hinvalid : gougingUpdateInvalid pk e.Update = true) :
    (∀ (gp : api.GougingParams) (expiry : Time),
      c.cache.items cacheKeyGougingParams
        = some { value := Value.gougingParams gp, expiry := expiry } →
      ∃ (err : Error) (c1 : worker.cache σ),
        c.HandleEvent pk event now = some (some err, c1) ∧ c1.cache = c.cache) ∧
    (c.cache.items cacheKeyGougingParams = none →
      ∃ c1 : worker.cache σ,
        c.HandleEvent pk event now = some (none, c1) ∧ c1.cache = c.cache) := by
  constructor
  · intro gp expiry hentry
    obtain ⟨err, h⟩ := cache.HandleEvent_SettingUpdate_gouging_invalid pk c event e now gp expiry
      hparse hkey hinvalid hentry
    exact ⟨err, _, h, rfl⟩
  · intro habsent
    exact ⟨_, cache.HandleEvent_SettingUpdate_absent pk c event e now hparse habsent, rfl⟩

/-- Witness of the amended claim C13: the store holds the gouging parameters of
height 100 and the payload of the update is rejected. -/
theorem C13_invalid_gouging_update_leaves_store_witness :
    (examplePackages (api.Parsed.SettingUpdate
        { Key := "gouging", Update := "not gouging settings", Timestamp := 0 })).ParseEventWebhook
        { Module := "setting", Event := "update", Payload := "" }
      = Except.ok (api.Parsed.SettingUpdate
        { Key := "gouging", Update := "not gouging settings", Timestamp := 0 }) ∧
    gougingUpdateInvalid
        (examplePackages (api.Parsed.SettingUpdate
          { Key := "gouging", Update := "not gouging settings", Timestamp := 0 }))
        "not gouging settings" = true ∧
    (exampleCache (exampleBus ([], none) (exampleGougingParams 0, none) (fun _ => none)) true
        none (some { value := Value.gougingParams (exampleGougingParams 100), expiry := 500 })
        ).cache.items cacheKeyGougingParams
      = some { value := Value.gougingParams (exampleGougingParams 100), expiry := 500 } ∧
    ∃ (err : Error) (c1 : worker.cache Unit),
      (exampleCache (exampleBus ([], none) (exampleGougingParams 0, none) (fun _ => none)) true
        none (some { value := Value.gougingParams (exampleGougingParams 100), expiry := 500 })
        ).HandleEvent
        (examplePackages (api.Parsed.SettingUpdate
          { Key := "gouging", Update := "not gouging settings", Timestamp := 0 }))
        { Module := "setting", Event := "update", Payload := "" } 10 = some (some err, c1) ∧
      c1.cache = (exampleCache (exampleBus ([], none) (exampleGougingParams 0, none)
        (fun _ => none)) true none
        (some { value := Value.gougingParams (exampleGougingParams 100), expiry := 500 })
        ).cache :=
  ⟨rfl, by decide, by decide,
    (C13_invalid_gouging_update_leaves_store
      (examplePackages (api.Parsed.SettingUpdate
        { Key := "gouging", Update := "not gouging settings", Timestamp := 0 }))
      (exampleCache (exampleBus ([], none) (exampleGougingParams 0, none) (fun _ => none)) true
        none (some { value := Value.gougingParams (exampleGougingParams 100), expiry := 500 }))
      { Module := "setting", Event := "update", Payload := "" }
      { Key := "gouging", Update := "not gouging settings", Timestamp := 0 } 10 rfl rfl
      (by decide)).1 (exampleGougingParams 100) 500 (by decide)⟩

/-! ## The comparison of contract lists -/

theorem contractsEqualLoop_iff (xs ys : List api.ContractMetadata)
    (h : xs.length = ys.length) :
    contractsEqualLoop xs ys = true ↔
      xs.map (fun c => c.ID) = ys.map (fun c => c.ID) := by
  induction xs generalizing ys with
  | nil =>
    cases ys with
    | nil => simp [contractsEqualLoop]
    | cons d ds => simp at h
  | cons c cs ih =>
    cases ys with
    | nil => simp at h
    | cons d ds =>
      have hlen : cs.length = ds.length := by simpa using h
      by_cases hcd : c.ID = d.ID
      · simp [contractsEqualLoop, hcd, ih ds hlen]
      · simp [contractsEqualLoop, hcd]

theorem sortSlice_perm (x : List api.ContractMetadata) : (sortSlice x).Perm x :=
  List.perm_insertionSort _ x

theorem sortSlice_map_sorted (x : List api.ContractMetadata) :
    ((sortSlice x).map (fun c => c.ID)).Sorted (fun a b : Nat => a ≤ b) := by
  haveI : IsTotal api.ContractMetadata (fun a b => a.ID ≤ b.ID) :=
    ⟨fun a b => Nat.le_total a.ID b.ID⟩
  haveI : IsTrans api.ContractMetadata (fun a b => a.ID ≤ b.ID) :=
    ⟨fun _ _ _ hab hbc => Nat.le_trans hab hbc⟩
  have hs : (sortSlice x).Sorted (fun a b => a.ID ≤ b.ID) :=
    List.sorted_insertionSort (fun a b : api.ContractMetadata => a.ID ≤ b.ID) x
  exact List.pairwise_map.mpr hs

theorem contractsEqual_iff_perm (x y : List api.ContractMetadata) :
    (contractsEqual x y).1 = true ↔
      (x.map (fun c => c.ID)).Perm (y.map (fun c => c.ID)) := by
  unfold contractsEqual
  by_cases hlen : x.length = y.length
  · have hlen2 : (sortSlice x).length = (sortSlice y).length := by
      rw [(sortSlice_perm x).length_eq, (sortSlice_perm y).length_eq, hlen]
    simp only [hlen, ne_eq, not_true_eq_false, if_false]
    rw [contractsEqualLoop_iff _ _ hlen2]
    constructor
    · intro h
      have hx := ((sortSlice_perm x).map (fun c => c.ID)).symm
      have hy := (sortSlice_perm y).map (fun c => c.ID)
      exact (hx.trans (h ▸ List.Perm.refl _)).trans hy
    · intro h
      have hx := (sortSlice_perm x).map (fun c => c.ID)
      have hy := ((sortSlice_perm y).map (fun c => c.ID)).symm
      exact List.eq_of_perm_of_sorted ((hx.trans h).trans hy) (sortSlice_map_sorted x)
        (sortSlice_map_sorted y)
  · simp only [ne_eq, hlen, not_false_eq_true, if_true]
    constructor
    · intro h
      simp at h
    · intro h
      have := h.length_eq
      simp at this
      exact absurd this hlen

/-- Claim C14.  For all contract lists `x` and `y`, `contractsEqual(x, y)` is
true exactly when the identifiers of `x` are a permutation of the identifiers
of `y`; it is true of a list and itself, gives the same answer with its
arguments exchanged, and its answer does not change when either list is
replaced by a list with the same identifiers up to order, whatever the other
fields of the contracts are. -/
theorem C14_contractsEqual_iff_same_ids (x y : List api.ContractMetadata) :
    ((contractsEqual x y).1 = true ↔
      (x.map (fun c => c.ID)).Perm (y.map (fun c => c.ID))) ∧
    (contractsEqual x x).1 = true ∧
    (contractsEqual x y).1 = (contractsEqual y x).1 ∧
    (∀ x1 y1 : List api.ContractMetadata,
      (x1.map (fun c => c.ID)).Perm (x.map (fun c => c.ID)) →
      (y1.map (fun c => c.ID)).Perm (y.map (fun c => c.ID)) →
      (contractsEqual x1 y1).1 = (contractsEqual x y).1) := by
  refine ⟨contractsEqual_iff_perm x y, (contractsEqual_iff_perm x x).mpr (List.Perm.refl _), ?_, ?_⟩
  · rw [Bool.eq_iff_iff, contractsEqual_iff_perm, contractsEqual_iff_perm]
    exact ⟨fun h => h.symm, fun h => h.symm⟩
  · intro x1 y1 hx hy
    rw [Bool.eq_iff_iff, contractsEqual_iff_perm, contractsEqual_iff_perm]
    exact ⟨fun h => (hx.symm.trans h).trans hy, fun h => (hx.trans h).trans hy.symm⟩

/-- Witness of claim C14: the list `[b, a]` against a list `[a, b]` whose
contracts differ from it in every field but the identifier. -/
theorem C14_contractsEqual_iff_same_ids_witness :
    ([exampleContract 0xb, exampleContract 0xa].map (fun c => c.ID)).Perm
      ([({ ID := 0xa, RenewedFrom := 1, Terms := 2 } : api.ContractMetadata),
        { ID := 0xb, RenewedFrom := 3, Terms := 4 }].map (fun c => c.ID)) ∧
    (contractsEqual [exampleContract 0xb, exampleContract 0xa]
      [exampleContract 0xa, exampleContract 0xb]).1
      = (contractsEqual
          [({ ID := 0xa, RenewedFrom := 1, Terms := 2 } : api.ContractMetadata),
            { ID := 0xb, RenewedFrom := 3, Terms := 4 }]
          [exampleContract 0xa, exampleContract 0xb]).1 :=
  ⟨by decide,
    (C14_contractsEqual_iff_same_ids
      [({ ID := 0xa, RenewedFrom := 1, Terms := 2 } : api.ContractMetadata),
        { ID := 0xb, RenewedFrom := 3, Terms := 4 }]
      [exampleContract 0xa, exampleContract 0xb]).2.2.2
      [exampleContract 0xb, exampleContract 0xa] [exampleContract 0xa, exampleContract 0xb]
      (by decide) (List.Perm.refl _)⟩

/-! ## The typing discipline of the store -/

theorem wellTyped_newMemoryCache : wellTyped newMemoryCache := by
  constructor <;> intro e he <;> simp [newMemoryCache] at he

theorem wellTyped_Set_contracts (m : memoryCache) (l : List api.ContractMetadata) (t : Time)
    (h : wellTyped m) : wellTyped (m.Set cacheKeyDownloadContracts (Value.contracts l) t) := by
  constructor
  · intro e he
    simp [memoryCache.items_Set] at he
    exact ⟨l, by rw [← he]⟩
  · intro e he
    have hne : ¬ cacheKeyGougingParams = cacheKeyDownloadContracts := by decide
    simp [memoryCache.items_Set, hne] at he
    exact h.2 e he

theorem wellTyped_Set_gougingParams (m : memoryCache) (gp : api.GougingParams) (t : Time)
    (h : wellTyped m) : wellTyped (m.Set cacheKeyGougingParams (Value.gougingParams gp) t) := by
  constructor
  · intro e he
    have hne : ¬ cacheKeyDownloadContracts = cacheKeyGougingParams := by decide
    simp [memoryCache.items_Set, hne] at he
    exact h.1 e he
  · intro e he
    simp [memoryCache.items_Set] at he
    exact ⟨gp, by rw [← he]⟩

theorem wellTyped_Invalidate (m : memoryCache) (key : String) (h : wellTyped m) :
    wellTyped (m.Invalidate key) := by
  constructor
  · intro e he
    by_cases hk : cacheKeyDownloadContracts = key
    · simp [memoryCache.items_Invalidate, hk] at he
    · simp [memoryCache.items_Invalidate, hk] at he
      exact h.1 e he
  · intro e he
    by_cases hk : cacheKeyGougingParams = key
    · simp [memoryCache.items_Invalidate, hk] at he
    · simp [memoryCache.items_Invalidate, hk] at he
      exact h.2 e he

theorem wellTyped_reorderInPlace (m : memoryCache) (l : List api.ContractMetadata)
    (h : wellTyped m) : wellTyped (m.reorderInPlace cacheKeyDownloadContracts l) := by
  unfold memoryCache.reorderInPlace
  cases hitem : m.items cacheKeyDownloadContracts with
  | none => exact h
  | some entry =>
    constructor
    · intro e he
      simp at he
      exact ⟨l, by rw [← he]⟩
    · intro e he
      have hne : ¬ cacheKeyGougingParams = cacheKeyDownloadContracts := by decide
      simp [hne] at he
      exact h.2 e he

theorem cache.DownloadContracts_wellTyped {σ : Type} (c : worker.cache σ) (tGet tSet : Time)
    (h : wellTyped c.cache) :
    ∃ r, c.DownloadContracts tGet tSet = some r ∧ wellTyped r.2.cache := by
  by_cases hready : c.ready = true
  · cases hitem : c.cache.items cacheKeyDownloadContracts with
    | none =>
      cases herr : (c.b.Contracts c.busState).1.2 with
      | none =>
        exact ⟨_, cache.DownloadContracts_miss c tGet tSet hready hitem herr,
          wellTyped_Set_contracts _ _ _ h⟩
      | some err =>
        simp only [cache.DownloadContracts, cache.isReady, hready,
          memoryCache.Get_of_none _ _ _ hitem, cache.busContracts, herr]
        simp
        exact h
    | some entry =>
      obtain ⟨l, hl⟩ := h.1 entry hitem
      by_cases hexp : entry.expiry < tGet
      · cases herr : (c.b.Contracts c.busState).1.2 with
        | none =>
          simp only [cache.DownloadContracts, cache.isReady, hready,
            memoryCache.Get_of_some _ _ _ _ hitem, cache.busContracts, herr, hexp, hl]
          simp [Value.assertContracts]
          split <;>
            exact wellTyped_reorderInPlace _ _ (wellTyped_Set_contracts _ _ _ h)
        | some err =>
          simp only [cache.DownloadContracts, cache.isReady, hready,
            memoryCache.Get_of_some _ _ _ _ hitem, cache.busContracts, herr, hexp, hl]
          simp [Value.assertContracts]
          split <;> exact wellTyped_reorderInPlace _ _ h
      · have hentry : c.cache.items cacheKeyDownloadContracts
            = some { value := Value.contracts l, expiry := entry.expiry } := by
          rw [hitem, ← hl]
        exact ⟨_, cache.DownloadContracts_fresh c tGet tSet l entry.expiry hready hentry
          (Nat.not_lt.mp hexp), h⟩
  · have hnr : c.ready = false := by simpa using hready
    exact ⟨_, cache.DownloadContracts_not_ready c tGet tSet hnr, h⟩

theorem cache.GougingParams_wellTyped {σ : Type} (pk : Packages) (c : worker.cache σ)
    (tGet tSet : Time) (h : wellTyped c.cache) :
    ∃ r, c.GougingParams pk tGet tSet = some r ∧ wellTyped r.2.cache := by
  by_cases hready : c.ready = true
  · cases hitem : c.cache.items cacheKeyGougingParams with
    | none =>
      cases herr : (c.b.GougingParams c.busState).1.2 with
      | none =>
        exact ⟨_, cache.GougingParams_miss pk c tGet tSet hready hitem herr,
          wellTyped_Set_gougingParams _ _ _ h⟩
      | some err =>
        simp only [cache.GougingParams, cache.isReady, hready,
          memoryCache.Get_of_none _ _ _ hitem, cache.busGougingParams, herr]
        simp
        exact h
    | some entry =>
      obtain ⟨gp, hgp⟩ := h.2 entry hitem
      by_cases hexp : entry.expiry < tGet
      · cases herr : (c.b.GougingParams c.busState).1.2 with
        | none =>
          simp only [cache.GougingParams, cache.isReady, hready,
            memoryCache.Get_of_some _ _ _ _ hitem, cache.busGougingParams, herr, hexp, hgp]
          simp [Value.assertGougingParams]
          split <;> exact wellTyped_Set_gougingParams _ _ _ h
        | some err =>
          simp only [cache.GougingParams, cache.isReady, hready,
            memoryCache.Get_of_some _ _ _ _ hitem, cache.busGougingParams, herr, hexp, hgp]
          simp [Value.assertGougingParams]
          split <;> exact h
      · have hentry : c.cache.items cacheKeyGougingParams
            = some { value := Value.gougingParams gp, expiry := entry.expiry } := by
          rw [hitem, ← hgp]
        exact ⟨_, cache.GougingParams_fresh pk c tGet tSet gp entry.expiry hready hentry
          (Nat.not_lt.mp hexp), h⟩
  · have hnr : c.ready = false := by simpa using hready
    exact ⟨_, cache.GougingParams_not_ready pk c tGet tSet hnr, h⟩

theorem cache.handleConsensusUpdate_wellTyped {σ : Type} (c : worker.cache σ)
    (e : api.EventConsensusUpdate) (now : Time) (h : wellTyped c.cache) :
    ∃ c1, c.handleConsensusUpdate e now = some c1 ∧ wellTyped c1.cache := by
  cases hitem : c.cache.items cacheKeyGougingParams with
  | none =>
    exact ⟨c, by simp [cache.handleConsensusUpdate, memoryCache.Get_of_none _ _ _ hitem], h⟩
  | some entry =>
    obtain ⟨gp, hgp⟩ := h.2 entry hitem
    refine ⟨_, by
      simp [cache.handleConsensusUpdate, memoryCache.Get_of_some _ _ _ _ hitem, hgp,
        Value.assertGougingParams]; rfl, ?_⟩
    exact wellTyped_Set_gougingParams _ _ _ h

theorem cache.handleContractArchive_wellTyped {σ : Type} (c : worker.cache σ)
    (e : api.EventContractArchive) (now : Time) (h : wellTyped c.cache) :
    ∃ c1, c.handleContractArchive e now = some c1 ∧ wellTyped c1.cache := by
  cases hitem : c.cache.items cacheKeyDownloadContracts with
  | none =>
    exact ⟨c, by simp [cache.handleContractArchive, memoryCache.Get_of_none _ _ _ hitem], h⟩
  | some entry =>
    obtain ⟨l, hl⟩ := h.1 entry hitem
    refine ⟨_, by
      simp [cache.handleContractArchive, memoryCache.Get_of_some _ _ _ _ hitem, hl,
        Value.assertContracts]; rfl, ?_⟩
    exact wellTyped_Set_contracts _ _ _ h

theorem cache.handleContractRenew_wellTyped {σ : Type} (c : worker.cache σ)
    (e : api.EventContractRenew) (now : Time) (h : wellTyped c.cache) :
    ∃ c1, c.handleContractRenew e now = some c1 ∧ wellTyped c1.cache := by
  cases hitem : c.cache.items cacheKeyDownloadContracts with
  | none =>
    exact ⟨c, by simp [cache.handleContractRenew, memoryCache.Get_of_none _ _ _ hitem], h⟩
  | some entry =>
    obtain ⟨l, hl⟩ := h.1 entry hitem
    refine ⟨_, by
      simp [cache.handleContractRenew, memoryCache.Get_of_some _ _ _ _ hitem, hl,
        Value.assertContracts]; rfl, ?_⟩
    exact wellTyped_Set_contracts _ _ _ h

theorem cache.handleSettingDelete_wellTyped {σ : Type} (c : worker.cache σ)
    (e : api.EventSettingDelete) (h : wellTyped c.cache) :
    wellTyped (c.handleSettingDelete e).cache := by
  unfold cache.handleSettingDelete
  split
  · exact wellTyped_Invalidate _ _ h
  · exact h

theorem cache.handleSettingUpdate_wellTyped {σ : Type} (pk : Packages) (c : worker.cache σ)
    (e : api.EventSettingUpdate) (now : Time) (h : wellTyped c.cache) :
    ∃ r, c.handleSettingUpdate pk e now = some r ∧ wellTyped r.2.cache := by
  cases hitem : c.cache.items cacheKeyGougingParams with
  | none =>
    exact ⟨(none, c), by simp [cache.handleSettingUpdate, memoryCache.Get_of_none _ _ _ hitem], h⟩
  | some entry =>
    obtain ⟨gp, hgp⟩ := h.2 entry hitem
    simp only [cache.handleSettingUpdate, memoryCache.Get_of_some _ _ _ _ hitem, hgp,
      Value.assertGougingParams]
    simp only [Bool.not_true, Bool.false_eq_true, if_false]
    split
    · exact ⟨_, rfl, h⟩
    · split
      · split
        · exact ⟨_, rfl, h⟩
        · split
          · exact ⟨_, rfl, h⟩
          · exact ⟨_, rfl, wellTyped_Set_gougingParams _ _ _ h⟩
      · split
        · split
          · exact ⟨_, rfl, h⟩
          · split
            · exact ⟨_, rfl, h⟩
            · exact ⟨_, rfl, wellTyped_Set_gougingParams _ _ _ h⟩
        · exact ⟨_, rfl, h⟩

theorem cache.logOutcome_cache {σ : Type} (c : worker.cache σ) (err : Option Error) :
    (cache.logOutcome c err).2.cache = c.cache := by
  cases err <;> rfl

theorem cache.HandleEvent_wellTyped {σ : Type} (pk : Packages) (c : worker.cache σ)
    (event : webhooks.Event) (now : Time) (h : wellTyped c.cache) :
    ∃ r, c.HandleEvent pk event now = some r ∧ wellTyped r.2.cache := by
  unfold cache.HandleEvent
  split
  · exact ⟨_, rfl, h⟩
  · split
    · obtain ⟨c1, h1, h2⟩ := cache.handleConsensusUpdate_wellTyped c _ now h
      rw [h1]
      exact ⟨_, rfl, by rw [cache.logOutcome_cache]; exact h2⟩
    · obtain ⟨c1, h1, h2⟩ := cache.handleContractArchive_wellTyped c _ now h
      rw [h1]
      exact ⟨_, rfl, by rw [cache.logOutcome_cache]; exact h2⟩
    · obtain ⟨c1, h1, h2⟩ := cache.handleContractRenew_wellTyped c _ now h
      rw [h1]
      exact ⟨_, rfl, by rw [cache.logOutcome_cache]; exact h2⟩
    · obtain ⟨r1, h1, h2⟩ := cache.handleSettingUpdate_wellTyped pk c _ now h
      rw [h1]
      exact ⟨_, rfl, by rw [cache.logOutcome_cache]; exact h2⟩
    · exact ⟨_, rfl, by
        rw [cache.logOutcome_cache]; exact cache.handleSettingDelete_wellTyped c _ h⟩
    · exact ⟨_, rfl, h⟩

theorem cache.Initialize_cache {σ : Type} (c : worker.cache σ) (workerAPI : String) :
    (c.Initialize workerAPI).2.cache = c.cache := by
  have hframe := cache.registerWebhooks_frame (cache.initWebhooks (workerAPI ++ "/events")) c
  cases he : (cache.registerWebhooks (cache.initWebhooks (workerAPI ++ "/events")) c).1 with
  | none =>
    rw [cache.Initialize_of_none c workerAPI he]
    exact hframe.2.1
  | some err =>
    rw [cache.Initialize_of_some c workerAPI err he]
    exact hframe.2.1

theorem Op.run_wellTyped {σ : Type} (pk : Packages) (c : worker.cache σ) (op : Op)
    (h : wellTyped c.cache) : ∃ c1, op.run pk c = some c1 ∧ wellTyped c1.cache := by
  cases op with
  | DownloadContracts tGet tSet =>
    obtain ⟨r, h1, h2⟩ := cache.DownloadContracts_wellTyped c tGet tSet h
    exact ⟨r.2, by simp [Op.run, h1], h2⟩
  | GougingParams tGet tSet =>
    obtain ⟨r, h1, h2⟩ := cache.GougingParams_wellTyped pk c tGet tSet h
    exact ⟨r.2, by simp [Op.run, h1], h2⟩
  | HandleEvent event now =>
    obtain ⟨r, h1, h2⟩ := cache.HandleEvent_wellTyped pk c event now h
    exact ⟨r.2, by simp [Op.run, h1], h2⟩
  | Initialize workerAPI =>
    exact ⟨_, rfl, by rw [cache.Initialize_cache]; exact h⟩

theorem runOps_wellTyped {σ : Type} (pk : Packages) (c : worker.cache σ) (ops : List Op)
    (h : wellTyped c.cache) : ∃ c1, runOps pk c ops = some c1 ∧ wellTyped c1.cache := by
  induction ops generalizing c with
  | nil => exact ⟨c, rfl, h⟩
  | cons op rest ih =>
    obtain ⟨c1, h1, h2⟩ := Op.run_wellTyped pk c op h
    obtain ⟨c2, h3, h4⟩ := ih c1 h2
    exact ⟨c2, by simp [runOps, h1, h3], h4⟩

/-! ## Reachable states, and reads after a patch -/

/-- Claim C15.  Every sequence of calls of `DownloadContracts`, `GougingParams`,
`HandleEvent` and `Initialize` on a new cache runs to its end without a failing
type assertion, and in the state it reaches an entry under the contracts key
holds a contract list and an entry under the gouging key holds a bundle of
gouging parameters; from that state every further call again runs without a
failing type assertion.  An assertion evaluated on the nil value of an absent
entry would fail, so none is evaluated. -/
theorem C15_type_assertions_never_fail {σ : Type} (pk : Packages) (b : Bus σ) (s : σ)
    (ops : List Op) :
    (∃ c : worker.cache σ, runOps pk (NewCache b s) ops = some c ∧ wellTyped c.cache ∧
      ∀ op : Op, ∃ c1 : worker.cache σ, op.run pk c = some c1 ∧ wellTyped c1.cache) ∧
    Value.assertContracts Value.nil = none ∧
    Value.assertGougingParams Value.nil = none := by
  refine ⟨?_, rfl, rfl⟩
  obtain ⟨c, h1, h2⟩ := runOps_wellTyped pk (NewCache b s) ops wellTyped_newMemoryCache
  exact ⟨c, h1, h2, fun op => Op.run_wellTyped pk c op h2⟩

/-- Witness of claim C15: a new cache is initialised, asked for the contracts
twice (the second time after expiry), sent an archival and asked for the
gouging parameters. -/
theorem C15_type_assertions_never_fail_witness :
    ∃ c : worker.cache Unit,
      runOps (examplePackages (api.Parsed.ContractArchive
          { ContractID := 0xa, Reason := "", Timestamp := 0 }))
        (NewCache (exampleBus ([exampleContract 0xb, exampleContract 0xa], none)
          (exampleGougingParams 100, none) (fun _ => none)) ())
        [Op.Initialize "http://worker", Op.DownloadContracts 1 2,
          Op.DownloadContracts 400000000000 400000000001,
          Op.HandleEvent { Module := "contract", Event := "archive", Payload := "" }
            400000000002,
          Op.GougingParams 400000000003 400000000004] = some c ∧
      wellTyped c.cache :=
  match (C15_type_assertions_never_fail
    (examplePackages (api.Parsed.ContractArchive
      { ContractID := 0xa, Reason := "", Timestamp := 0 }))
    (exampleBus ([exampleContract 0xb, exampleContract 0xa], none)
      (exampleGougingParams 100, none) (fun _ => none)) ()
    [Op.Initialize "http://worker", Op.DownloadContracts 1 2,
      Op.DownloadContracts 400000000000 400000000001,
      Op.HandleEvent { Module := "contract", Event := "archive", Payload := "" } 400000000002,
      Op.GougingParams 400000000003 400000000004]).1 with
  | ⟨c, h1, h2, _⟩ => ⟨c, h1, h2⟩

theorem cache.HandleEvent_SettingUpdate_gouging_valid {σ : Type} (pk : Packages)
    (c : worker.cache σ) (event : webhooks.Event) (e : api.EventSettingUpdate) (now : Time)
    (gp : api.GougingParams) (expiry : Time) (data : String) (gs : api.GougingSettings)
    (hparse : pk.ParseEventWebhook event = Except.ok (api.Parsed.SettingUpdate e))
    (hkey : e.Key = api.SettingGouging)
    (hm : pk.Marshal e.Update = Except.ok data)
    (hu : pk.UnmarshalGougingSettings data = Except.ok gs)
    (hv : pk.ValidateGougingSettings gs = none)
    (hentry : c.cache.items cacheKeyGougingParams
      = some { value := Value.gougingParams gp, expiry := expiry }) :
    c.HandleEvent pk event now =
      some (none,
        ({ c with cache := c.cache.Set cacheKeyGougingParams
                    (Value.gougingParams { gp with GougingSettings := gs }) now }
          : worker.cache σ).log LogEntry.InfoHandled) := by
  simp [cache.HandleEvent, hparse, cache.handleSettingUpdate,
    memoryCache.Get_of_some _ _ _ _ hentry, cache.logOutcome, Value.assertGougingParams,
    hm, hkey, hu, hv]

theorem cache.HandleEvent_SettingUpdate_redundancy_valid {σ : Type} (pk : Packages)
    (c : worker.cache σ) (event : webhooks.Event) (e : api.EventSettingUpdate) (now : Time)
    (gp : api.GougingParams) (expiry : Time) (data : String) (rs : api.RedundancySettings)
    (hparse : pk.ParseEventWebhook event = Except.ok (api.Parsed.SettingUpdate e))
    (hkey : e.Key = api.SettingRedundancy)
    (hm : pk.Marshal e.Update = Except.ok data)
    (hu : pk.UnmarshalRedundancySettings data = Except.ok rs)
    (hv : pk.ValidateRedundancySettings rs = none)
    (hentry : c.cache.items cacheKeyGougingParams
      = some { value := Value.gougingParams gp, expiry := expiry }) :
    c.HandleEvent pk event now =
      some (none,
        ({ c with cache := c.cache.Set cacheKeyGougingParams
                    (Value.gougingParams { gp with RedundancySettings := rs }) now }
          : worker.cache σ).log LogEntry.InfoHandled) := by
  have hne : ¬ api.SettingRedundancy = api.SettingGouging := by decide
  simp [cache.HandleEvent, hparse, cache.handleSettingUpdate,
    memoryCache.Get_of_some _ _ _ _ hentry, cache.logOutcome, Value.assertGougingParams,
    hm, hkey, hu, hv, hne]

theorem cache.repeatGougingParams_after_Set {σ : Type} (pk : Packages) (c : worker.cache σ)
    (gp : api.GougingParams) (now : Time) (hready : c.ready = true)
    (ts : List (Time × Time)) (hts : ∀ t ∈ ts, t.1 ≤ now + 5 * 60 * 1000000000) :
    cache.repeatGougingParams pk
        (({ c with cache := c.cache.Set cacheKeyGougingParams (Value.gougingParams gp) now }
          : worker.cache σ).log LogEntry.InfoHandled) ts
      = some (ts.map (fun _ => (gp, none)),
          ({ c with cache := c.cache.Set cacheKeyGougingParams (Value.gougingParams gp) now }
            : worker.cache σ).log LogEntry.InfoHandled) := by
  refine cache.repeatGougingParams_fresh pk _ gp (now + 5 * 60 * 1000000000) ?_ ?_ ts hts
  · exact hready
  · simp [cache.log, memoryCache.items_Set, cacheEntryExpiry]

theorem cache.repeatDownloadContracts_after_Set {σ : Type} (c : worker.cache σ)
    (l : List api.ContractMetadata) (now : Time) (hready : c.ready = true)
    (ts : List (Time × Time)) (hts : ∀ t ∈ ts, t.1 ≤ now + 5 * 60 * 1000000000) :
    cache.repeatDownloadContracts
        (({ c with cache := c.cache.Set cacheKeyDownloadContracts (Value.contracts l) now }
          : worker.cache σ).log LogEntry.InfoHandled) ts
      = some (ts.map (fun _ => (l, none)),
          ({ c with cache := c.cache.Set cacheKeyDownloadContracts (Value.contracts l) now }
            : worker.cache σ).log LogEntry.InfoHandled) := by
  refine cache.repeatDownloadContracts_fresh _ l (now + 5 * 60 * 1000000000) ?_ ?_ ts hts
  · exact hready
  · simp [cache.log, memoryCache.items_Set, cacheEntryExpiry]

/-- Claim C16.  In a ready cache, when an event handler patches an entry that
has expired (a consensus update or a valid update of the gouging or of the
redundancy setting on the gouging parameters, an archival or a renewal on the
contract list) at instant `now`, every sequence of following gets of that kind
that read the store no later than `now` plus five minutes returns the patched
value, derived from the expired one, each time and leaves the whole cache as
it is: no bus call is made and no audit runs or logs. -/
theorem C16_patched_entry_is_fresh {σ : Type} (pk : Packages) (c : worker.cache σ)
    (event : webhooks.Event) (now : Time) (hready : c.ready = true) :
    (∀ (e : api.EventConsensusUpdate) (gp : api.GougingParams) (expiry : Time),
      pk.ParseEventWebhook event = Except.ok (api.Parsed.ConsensusUpdate e) →
      c.cache.items cacheKeyGougingParams
        = some { value := Value.gougingParams gp, expiry := expiry } →
      expiry < now →
      ∃ c1 : worker.cache σ, c.HandleEvent pk event now = some (none, c1) ∧
        ∀ ts : List (Time × Time), (∀ t ∈ ts, t.1 ≤ now + 5 * 60 * 1000000000) →
          c1.repeatGougingParams pk ts =
            some (ts.map (fun _ =>
              ({ gp with ConsensusState := e.ConsensusState,
                         TransactionFee := e.TransactionFee }, none)), c1)) ∧
    (∀ (e : api.EventSettingUpdate) (gp : api.GougingParams) (expiry : Time) (data : String)
       (gs : api.GougingSettings),
      pk.ParseEventWebhook event = Except.ok (api.Parsed.SettingUpdate e) →
      e.Key = api.SettingGouging →
      pk.Marshal e.Update = Except.ok data →
      pk.UnmarshalGougingSettings data = Except.ok gs →
      pk.ValidateGougingSettings gs = none →
      c.cache.items cacheKeyGougingParams
        = some { value := Value.gougingParams gp, expiry := expiry } →
      expiry < now →
      ∃ c1 : worker.cache σ, c.HandleEvent pk event now = some (none, c1) ∧
        ∀ ts : List (Time × Time), (∀ t ∈ ts, t.1 ≤ now + 5 * 60 * 1000000000) →
          c1.repeatGougingParams pk ts =
            some (ts.map (fun _ => ({ gp with GougingSettings := gs }, none)), c1)) ∧
    (∀ (e : api.EventSettingUpdate) (gp : api.GougingParams) (expiry : Time) (data : String)
       (rs : api.RedundancySettings),
      pk.ParseEventWebhook event = Except.ok (api.Parsed.SettingUpdate e) →
      e.Key = api.SettingRedundancy →
      pk.Marshal e.Update = Except.ok data →
      pk.UnmarshalRedundancySettings data = Except.ok rs →
      pk.ValidateRedundancySettings rs = none →
      c.cache.items cacheKeyGougingParams
        = some { value := Value.gougingParams gp, expiry := expiry } →
      expiry < now →
      ∃ c1 : worker.cache σ, c.HandleEvent pk event now = some (none, c1) ∧
        ∀ ts : List (Time × Time), (∀ t ∈ ts, t.1 ≤ now + 5 * 60 * 1000000000) →
          c1.repeatGougingParams pk ts =
            some (ts.map (fun _ => ({ gp with RedundancySettings := rs }, none)), c1)) ∧
    (∀ (e : api.EventContractArchive) (l : List api.ContractMetadata) (expiry : Time),
      pk.ParseEventWebhook event = Except.ok (api.Parsed.ContractArchive e) →
      c.cache.items cacheKeyDownloadContracts
        = some { value := Value.contracts l, expiry := expiry } →
      expiry < now →
      ∃ c1 : worker.cache σ, c.HandleEvent pk event now = some (none, c1) ∧
        ∀ ts : List (Time × Time), (∀ t ∈ ts, t.1 ≤ now + 5 * 60 * 1000000000) →
          c1.repeatDownloadContracts ts =
            some (ts.map (fun _ => (removeFirstID e.ContractID l, none)), c1)) ∧
    (∀ (e : api.EventContractRenew) (l : List api.ContractMetadata) (expiry : Time),
      pk.ParseEventWebhook event = Except.ok (api.Parsed.ContractRenew e) →
      c.cache.items cacheKeyDownloadContracts
        = some { value := Value.contracts l, expiry := expiry } →
      expiry < now →
      ∃ c1 : worker.cache σ, c.HandleEvent pk event now = some (none, c1) ∧
        ∀ ts : List (Time × Time), (∀ t ∈ ts, t.1 ≤ now + 5 * 60 * 1000000000) →
          c1.repeatDownloadContracts ts =
            some (ts.map (fun _ => (replaceFirstID e.Renewal l, none)), c1)) := by
  refine ⟨?_, ?_, ?_, ?_, ?_⟩
  · intro e gp expiry hparse hentry _
    exact ⟨_, cache.HandleEvent_ConsensusUpdate_present pk c event e now gp expiry hparse hentry,
      fun ts hts => cache.repeatGougingParams_after_Set pk c _ now hready ts hts⟩
  · intro e gp expiry data gs hparse hkey hm hu hv hentry _
    exact ⟨_, cache.HandleEvent_SettingUpdate_gouging_valid pk c event e now gp expiry data gs
        hparse hkey hm hu hv hentry,
      fun ts hts => cache.repeatGougingParams_after_Set pk c _ now hready ts hts⟩
  · intro e gp expiry data rs hparse hkey hm hu hv hentry _
    exact ⟨_, cache.HandleEvent_SettingUpdate_redundancy_valid pk c event e now gp expiry data rs
        hparse hkey hm hu hv hentry,
      fun ts hts => cache.repeatGougingParams_after_Set pk c _ now hready ts hts⟩
  · intro e l expiry hparse hentry _
    exact ⟨_, cache.HandleEvent_ContractArchive_present pk c event e now l expiry hparse hentry,
      fun ts hts => cache.repeatDownloadContracts_after_Set c _ now hready ts hts⟩
  · intro e l expiry hparse hentry _
    exact ⟨_, cache.HandleEvent_ContractRenew_present pk c event e now l expiry hparse hentry,
      fun ts hts => cache.repeatDownloadContracts_after_Set c _ now hready ts hts⟩

/-- Witness of claim C16: gouging parameters of height 100 that expired at
instant 5 are patched by a consensus update at instant 10 and served from the
store until five minutes after the patch. -/
theorem C16_patched_entry_is_fresh_witness :
    (exampleCache (exampleBus ([], none) (exampleGougingParams 0, none) (fun _ => none)) true
        none (some { value := Value.gougingParams (exampleGougingParams 100), expiry := 5 })
        ).ready = true ∧
    (exampleCache (exampleBus ([], none) (exampleGougingParams 0, none) (fun _ => none)) true
        none (some { value := Value.gougingParams (exampleGougingParams 100), expiry := 5 })
        ).cache.items cacheKeyGougingParams
      = some { value := Value.gougingParams (exampleGougingParams 100), expiry := 5 } ∧
    5 < 10 ∧
    ∃ c1 : worker.cache Unit,
      (exampleCache (exampleBus ([], none) (exampleGougingParams 0, none) (fun _ => none)) true
        none (some { value := Value.gougingParams (exampleGougingParams 100), expiry := 5 })
        ).HandleEvent
        (examplePackages (api.Parsed.ConsensusUpdate
          { ConsensusState := { BlockHeight := 101, LastBlockTime := 9, Synced := true },
            TransactionFee := 7, Timestamp := 9 }))
        { Module := "consensus", Event := "update", Payload := "" } 10 = some (none, c1) ∧
      c1.repeatGougingParams
          (examplePackages (api.Parsed.ConsensusUpdate
            { ConsensusState := { BlockHeight := 101, LastBlockTime := 9, Synced := true },
              TransactionFee := 7, Timestamp := 9 }))
          [(11, 12), (300000000010, 300000000011)]
        = some ([({ exampleGougingParams 100 with
                      ConsensusState := { BlockHeight := 101, LastBlockTime := 9, Synced := true },
                      TransactionFee := 7 }, none),
                 ({ exampleGougingParams 100 with
                      ConsensusState := { BlockHeight := 101, LastBlockTime := 9, Synced := true },
                      TransactionFee := 7 }, none)], c1) := by
  refine ⟨rfl, by decide, by decide, ?_⟩
  obtain ⟨c1, h1, h2⟩ :=
    (C16_patched_entry_is_fresh
      (examplePackages (api.Parsed.ConsensusUpdate
        { ConsensusState := { BlockHeight := 101, LastBlockTime := 9, Synced := true },
          TransactionFee := 7, Timestamp := 9 }))
      (exampleCache (exampleBus ([], none) (exampleGougingParams 0, none) (fun _ => none)) true
        none (some { value := Value.gougingParams (exampleGougingParams 100), expiry := 5 }))
      { Module := "consensus", Event := "update", Payload := "" } 10 rfl).1
      { ConsensusState := { BlockHeight := 101, LastBlockTime := 9, Synced := true },
        TransactionFee := 7, Timestamp := 9 }
      (exampleGougingParams 100) 5 rfl (by decide) (by decide)
  exact ⟨c1, h1, h2 [(11, 12), (300000000010, 300000000011)] (by decide)⟩

end worker
